import Mathlib

/-!
Verification of the core subsystems of the Amjad50/OS kernel against its
natural-language specification.

The development shallowly embeds, in Lean, the code paths the claims talk
about:
* the interrupt-aware spinlock (`src/src/cpu/mod.rs`,
  `src/kernel/src/sync/spin/mutex.rs`);
* the FAT12/16/32 filesystem reader (`src/kernel/src/fs/fat.rs`);
* the 4-level virtual memory mapper
  (`src/kernel/src/memory_management/virtual_memory_mapper.rs`);
* the ACPI AML parser (`src/kernel/src/acpi/aml.rs`).

Machine integers are modelled as `Nat`/`Int` (overflow is flagged where it
matters), panics and `todo!()` as explicit outcome values, and the few
collaborator functions whose source is not part of the repository snapshot
(the physical page allocator, `memory_layout` helpers, the block-device read
primitive, the raw `Lock`) are modelled from the specification's description
of their interfaces; each such definition is marked `Modelled from the
spec:` in its doc comment.
-/

/-! ## CPU interrupt gate and spin mutex

Embedding of `Cpu::push_cli` / `Cpu::pop_cli` (`src/src/cpu/mod.rs`) and
`Mutex::lock` / `MutexGuard::drop` (`src/kernel/src/sync/spin/mutex.rs`).
The hardware interrupt-enable flag (bit `IF` of `rflags`) is modelled as a
boolean; `clear_interrupts`/`set_interrupts` set it. -/

/-- The per-CPU bookkeeping of `struct Cpu` (only the fields `push_cli` /
`pop_cli` touch), together with the hardware interrupt-enable flag `IF`
this CPU observes through `rflags`. -/
structure CpuState where
  id : Nat
  old_interrupt_enable : Bool
  n_cli : Nat
  /-- Bit `IF` of `rflags`: true when interrupts are enabled. -/
  intEnabled : Bool
  deriving Repr, DecidableEq

/-- `Cpu::push_cli`: on the 0→1 transition of `n_cli`, snapshot the
interrupt flag and execute `cli`. -/
def CpuState.push_cli (c : CpuState) : CpuState :=
  if c.n_cli = 0 then
    { c with
      old_interrupt_enable := c.intEnabled
      intEnabled := false
      n_cli := c.n_cli + 1 }
  else
    { c with n_cli := c.n_cli + 1 }

/-- `Cpu::pop_cli`: panics (`none`) when interrupts are enabled or `n_cli`
is zero; otherwise decrements `n_cli` and executes `sti` when the counter
reaches zero and the snapshot recorded enabled interrupts. -/
def CpuState.pop_cli (c : CpuState) : Option CpuState :=
  if c.intEnabled then
    none
  else if c.n_cli = 0 then
    none
  else if c.n_cli - 1 = 0 ∧ c.old_interrupt_enable then
    some { c with n_cli := c.n_cli - 1, intEnabled := true }
  else
    some { c with n_cli := c.n_cli - 1 }

/-- State of one `Mutex<T>`: the raw `lock::Lock` flag and `owner_cpu`
(`AtomicI64`, `-1` when unowned). The payload `T` is irrelevant to the
claims and omitted. -/
structure MutexState where
  locked : Bool
  owner_cpu : Int
  deriving Repr, DecidableEq

/-- `Mutex::new`. -/
def MutexState.new : MutexState := { locked := false, owner_cpu := -1 }

/-- One CPU plus a family of mutexes indexed by `Nat`. -/
structure MutexSys where
  cpu : CpuState
  mutexes : Nat → MutexState

/-- `Modelled from the spec:` the raw `lock::Lock::lock` (module
`sync/spin/lock` is not part of the source snapshot) is a busy-wait
test-and-set acquire.  On a single CPU with interrupts disabled, locking an
already-held lock spins forever, which this sequential model renders as
`none`. -/
def rawLockAcquire (m : MutexState) : Option MutexState :=
  if m.locked then none else some { m with locked := true }

/-- `Mutex::lock`: `push_cli`, panic (`none`) if this CPU already owns the
lock, acquire the raw lock, record the owner. -/
def MutexSys.lock (s : MutexSys) (i : Nat) : Option MutexSys :=
  let cpu := s.cpu.push_cli
  if (s.mutexes i).owner_cpu = (cpu.id : Int) then
    none
  else
    match rawLockAcquire (s.mutexes i) with
    | none => none
    | some m =>
      some
        { cpu := cpu
          mutexes := fun j => if j = i then { m with owner_cpu := (cpu.id : Int) } else s.mutexes j }

/-- `MutexGuard::drop`: clear the owner, release the raw lock, `pop_cli`. -/
def MutexSys.unlock (s : MutexSys) (i : Nat) : Option MutexSys :=
  let m := { locked := false, owner_cpu := (-1 : Int) }
  match s.cpu.pop_cli with
  | none => none
  | some cpu =>
    some { cpu := cpu, mutexes := fun j => if j = i then m else s.mutexes j }

/-- A step of a single-CPU execution: acquire mutex `i` or drop its guard. -/
inductive MutexOp where
  | lock (i : Nat)
  | unlock (i : Nat)

/-- Run a sequence of lock/guard-drop steps; `none` as soon as a step
panics or deadlocks. -/
def MutexSys.exec (s : MutexSys) : List MutexOp → Option MutexSys
  | [] => some s
  | MutexOp.lock i :: ops => (s.lock i).bind fun s' => s'.exec ops
  | MutexOp.unlock i :: ops => (s.unlock i).bind fun s' => s'.exec ops

/-- The interrupt-discipline invariant tying a reachable state to the
state the execution started from. -/
def CliInv (init s : MutexSys) : Prop :=
  (s.cpu.n_cli = 0 ∧ s.cpu.intEnabled = init.cpu.intEnabled) ∨
    (0 < s.cpu.n_cli ∧ s.cpu.intEnabled = false ∧
      s.cpu.old_interrupt_enable = init.cpu.intEnabled)

/-- Concrete S7-style run for the C6 witness: two nested locks on one CPU,
dropped in reverse order, starting with interrupts enabled. -/
def mutexSysInit : MutexSys :=
  { cpu := { id := 0, old_interrupt_enable := false, n_cli := 0, intEnabled := true }
    mutexes := fun _ => MutexState.new }

/-! ## FAT12/16/32 filesystem reader

Embedding of `src/kernel/src/fs/fat.rs`.  Bytes are `Nat`s below `256`;
byte buffers are `List Nat`.  Panics (out-of-bounds indexing, failed
`assert!`s, division by a runtime zero) are modelled as `none` of an outer
`Option`. -/

inductive FatType where
  | Fat12
  | Fat16
  | Fat32
  deriving Repr, DecidableEq

inductive FatError where
  | InvalidBootSector
  | UnexpectedFatEntry
  deriving Repr, DecidableEq

inductive FileSystemError where
  | FileNotFound
  | InvalidPath
  | IsDirectory
  | IsNotDirectory
  | DeviceNotFound
  | DiskReadError (sector : Nat)
  | FatError (e : FatError)
  deriving Repr, DecidableEq

inductive FatEntry where
  | Free
  | Next (n : Nat)
  | EndOfChain
  | Bad
  | Reserved
  deriving Repr, DecidableEq

/-- `FatEntry::from_u32`: classification bands of a raw FAT entry value,
per FAT type. -/
def FatEntry.from_u32 (ty : FatType) (entry : Nat) : FatEntry :=
  match ty with
  | FatType.Fat12 =>
    if entry = 0 then FatEntry.Free
    else if entry ≥ 0xFF8 then FatEntry.EndOfChain
    else if entry = 0xFF7 then FatEntry.Bad
    else if 0x002 ≤ entry ∧ entry ≤ 0xFF6 then FatEntry.Next entry
    else FatEntry.Reserved
  | FatType.Fat16 =>
    if entry = 0 then FatEntry.Free
    else if entry ≥ 0xFFF8 then FatEntry.EndOfChain
    else if entry = 0xFFF7 then FatEntry.Bad
    else if 0x002 ≤ entry ∧ entry ≤ 0xFFF6 then FatEntry.Next entry
    else FatEntry.Reserved
  | FatType.Fat32 =>
    if entry = 0 then FatEntry.Free
    else if entry ≥ 0x0FFFFFF8 then FatEntry.EndOfChain
    else if entry = 0x0FFFFFF7 then FatEntry.Bad
    else if 0x002 ≤ entry ∧ entry ≤ 0x0FFFFFF6 then FatEntry.Next entry
    else FatEntry.Reserved

/-- The numeric fields of `FatBootSectorRaw` that the embedded code reads.
The trailing two-byte signature sits at the same offset (474) in both
variants of the `FatExtendedBootSector` union, so the source's read of
`extended.fat32.boot_signature_2` is modelled by the single field
`boot_signature_2`; `fat_size_32` and `root_cluster` are the FAT32-view
fields used elsewhere. -/
structure FatBootSectorRaw where
  bytes_per_sector : Nat
  sectors_per_cluster : Nat
  reserved_sectors_count : Nat
  number_of_fats : Nat
  root_entry_count : Nat
  total_sectors_16 : Nat
  fat_size_16 : Nat
  total_sectors_32 : Nat
  boot_signature_2 : Nat
  fat_size_32 : Nat
  root_cluster : Nat
  deriving Repr, DecidableEq

structure FatBootSector where
  ty : FatType
  boot_sector : FatBootSectorRaw
  deriving Repr, DecidableEq

/-- `FatBootSector::new`: reject a bad trailing signature, then derive the
FAT type from `count_of_clusters`.  The `u32` division
`size_in_sectors / sectors_per_cluster` happens before the type match and
panics (`none`) when `sectors_per_cluster` is zero. -/
def FatBootSector.new (boot_sector : FatBootSectorRaw) (size_in_sectors : Nat) :
    Option (Except FatError FatBootSector) :=
  if boot_sector.boot_signature_2 ≠ 0xAA55 then
    some (Except.error FatError.InvalidBootSector)
  else if boot_sector.sectors_per_cluster = 0 then
    none
  else
    let count_of_clusters := size_in_sectors / boot_sector.sectors_per_cluster
    let fat_type :=
      if boot_sector.fat_size_16 = 0 then FatType.Fat32
      else if count_of_clusters ≤ 4084 then FatType.Fat12
      else if count_of_clusters ≤ 65524 then FatType.Fat16
      else FatType.Fat32
    some (Except.ok { ty := fat_type, boot_sector := boot_sector })

def FatBootSector.bytes_per_sector (s : FatBootSector) : Nat :=
  s.boot_sector.bytes_per_sector

def FatBootSector.sectors_per_cluster (s : FatBootSector) : Nat :=
  s.boot_sector.sectors_per_cluster

def FatBootSector.bytes_per_cluster (s : FatBootSector) : Nat :=
  s.boot_sector.sectors_per_cluster * s.boot_sector.bytes_per_sector

def FatBootSector.fat_size_in_sectors (s : FatBootSector) : Nat :=
  if s.ty = FatType.Fat32 then s.boot_sector.fat_size_32 else s.boot_sector.fat_size_16

def FatBootSector.number_of_fats (s : FatBootSector) : Nat :=
  s.boot_sector.number_of_fats

def FatBootSector.fat_start_sector (s : FatBootSector) : Nat :=
  s.boot_sector.reserved_sectors_count

def FatBootSector.root_dir_sectors (s : FatBootSector) : Nat :=
  (s.boot_sector.root_entry_count * 32 + (s.boot_sector.bytes_per_sector - 1)) /
    s.boot_sector.bytes_per_sector

def FatBootSector.root_dir_start_sector (s : FatBootSector) : Nat :=
  s.fat_start_sector + s.number_of_fats * s.fat_size_in_sectors

def FatBootSector.data_start_sector (s : FatBootSector) : Nat :=
  s.root_dir_start_sector + s.root_dir_sectors

/-- `Modelled from the spec:` the IDE block device collaborator
(`devices/ide` is not part of the source snapshot). `sector_size()` is the
device sector size and `read_sync(lba, buf)` synchronously fills `buf`
with the bytes stored from byte offset `lba * sector_size` on. `data` is
the device's byte content, indexed by absolute byte offset. -/
structure IdeDevice where
  sector_size : Nat
  data : Nat → Nat

/-- `Modelled from the spec:` `read_sync` returning `buf.len()` bytes read
from sector `lba` on (reads are whole sectors; the caller sizes the
buffer). -/
def IdeDevice.read_sync (d : IdeDevice) (lba : Nat) (len : Nat) : List Nat :=
  (List.range len).map fun i => d.data (lba * d.sector_size + i)

/-- `Modelled from the spec:` the `FileAttributes` flag struct of the
filesystem interface (`fs/mod.rs` is not part of the source snapshot). -/
structure FileAttributes where
  read_only : Bool
  hidden : Bool
  system : Bool
  volume_label : Bool
  directory : Bool
  archive : Bool
  deriving Repr, DecidableEq

/-- `Modelled from the spec:` an `INode` is
`(name, attributes, start_cluster, size_bytes)` (`fs/mod.rs` is not part
of the source snapshot; the optional device back-reference is irrelevant
here). -/
structure INode where
  name : String
  attributes : FileAttributes
  start_cluster : Nat
  size : Nat
  deriving Repr, DecidableEq

/-- `Modelled from the spec:` `INode::is_dir` is the `directory`
attribute. -/
def INode.is_dir (i : INode) : Bool := i.attributes.directory

inductive Directory where
  | RootFat12_16 (start_sector : Nat) (size_in_sectors : Nat)
  | Normal (inode : INode)
  deriving Repr, DecidableEq

structure FatFilesystem where
  start_lba : Nat
  size_in_sectors : Nat
  boot_sector : FatBootSector
  fat : List Nat
  device : IdeDevice

/-- `FatFilesystem::first_sector_of_cluster`. -/
def FatFilesystem.first_sector_of_cluster (fs : FatFilesystem) (cluster : Nat) : Nat :=
  fs.boot_sector.data_start_sector +
    (cluster - 2) * fs.boot_sector.sectors_per_cluster

/-- `FatFilesystem::read_sectors`: `count` sectors of
`bytes_per_sector` bytes each, read from the device at
`start_lba + start_sector`. -/
def FatFilesystem.read_sectors (fs : FatFilesystem) (start_sector : Nat) (count : Nat) :
    List Nat :=
  fs.device.read_sync (fs.start_lba + start_sector) (fs.boot_sector.bytes_per_sector * count)

/-- The raw little-endian `u16` load `*(ptr as *const u16)` from the
cached FAT (the machine is little-endian x86-64); `none` when a byte is
out of bounds. -/
def loadLE16 (fat : List Nat) (off : Nat) : Option Nat :=
  (fat.get? off).bind fun b0 =>
    (fat.get? (off + 1)).map fun b1 => b0 + b1 * 256

/-- The raw little-endian `u32` load `*(ptr as *const u32)` from the
cached FAT; `none` when a byte is out of bounds. -/
def loadLE32 (fat : List Nat) (off : Nat) : Option Nat :=
  (fat.get? off).bind fun b0 =>
    (fat.get? (off + 1)).bind fun b1 =>
      (fat.get? (off + 2)).bind fun b2 =>
        (fat.get? (off + 3)).map fun b3 =>
          b0 + b1 * 256 + b2 * 65536 + b3 * 16777216

/-- `FatFilesystem::read_fat_entry`: byte offset `n*3/2` (FAT12), `n*2`
(FAT16), `n*4` (FAT32); nibble re-packing for FAT12, little-endian `u16` /
28-bit-masked little-endian `u32` loads otherwise; then classification via
`FatEntry::from_u32`.  `none` models the failed bounds `assert!` or an
out-of-bounds raw read. -/
def FatFilesystem.read_fat_entry (fs : FatFilesystem) (entry : Nat) : Option FatEntry :=
  let fat_offset :=
    match fs.boot_sector.ty with
    | FatType.Fat12 => entry * 3 / 2
    | FatType.Fat16 => entry * 2
    | FatType.Fat32 => entry * 4
  if fat_offset < fs.fat.length then
    (match fs.boot_sector.ty with
      | FatType.Fat12 =>
        (fs.fat.get? fat_offset).bind fun byte1 =>
          (fs.fat.get? (fat_offset + 1)).map fun byte2 =>
            if entry % 2 = 1 then
              (byte2 <<< 4) ||| (byte1 >>> 4)
            else
              ((byte2 &&& 0xF) <<< 8) ||| byte1
      | FatType.Fat16 => loadLE16 fs.fat fat_offset
      | FatType.Fat32 =>
        (loadLE32 fs.fat fat_offset).map fun v => v &&& 0x0FFFFFFF).map
      (FatEntry.from_u32 fs.boot_sector.ty)
  else
    none

/-- The mutable fields of `DirectoryIterator` (the filesystem reference is
passed separately). -/
structure DirectoryIterator where
  dir : Directory
  current_sector : List Nat
  current_sector_index : Nat
  current_cluster : Nat
  entry_index_in_sector : Nat

/-- `DirectoryIterator::next_sector`: advance to the next sector, reading
the FAT entry of the current cluster when the next sector index crosses a
cluster boundary.  Returns `ok true` with the advanced iterator, `ok
false` when the directory is exhausted, an error on a broken chain;
the outer `Option` is `none` when `read_fat_entry` panics. -/
def DirectoryIterator.next_sector (fs : FatFilesystem) (it : DirectoryIterator) :
    Option (Except FileSystemError (Bool × DirectoryIterator)) :=
  let cont := fun (nsi : Nat) (it : DirectoryIterator) =>
    some (Except.ok (true,
      { it with
        current_sector := fs.read_sectors nsi 1
        current_sector_index := nsi
        entry_index_in_sector := 0 }))
  let next_sector_index := it.current_sector_index + 1
  match it.dir with
  | Directory.RootFat12_16 start_sector size_in_sectors =>
    if next_sector_index ≥ start_sector + size_in_sectors then
      some (Except.ok (false, it))
    else
      cont next_sector_index it
  | Directory.Normal _ =>
    if next_sector_index % fs.boot_sector.sectors_per_cluster = 0 then
      match fs.read_fat_entry it.current_cluster with
      | none => none
      | some (FatEntry.Next cluster) =>
        cont (cluster * fs.boot_sector.sectors_per_cluster)
          { it with current_cluster := cluster }
      | some FatEntry.EndOfChain => some (Except.ok (false, it))
      | some FatEntry.Bad => some (Except.error FileSystemError.FileNotFound)
      | some FatEntry.Reserved => some (Except.error FileSystemError.FileNotFound)
      | some FatEntry.Free => some (Except.error FileSystemError.FileNotFound)
    else
      cont next_sector_index it

/-- The `for _ in 0..cluster_index` chain-advance prefix of
`FatFilesystem::read_file`: follow `Next` links, any other entry is
`UnexpectedFatEntry`. -/
def FatFilesystem.advance_clusters (fs : FatFilesystem) :
    Nat → Nat → Option (Except FileSystemError Nat)
  | 0, cluster => some (Except.ok cluster)
  | n + 1, cluster =>
    match fs.read_fat_entry cluster with
    | none => none
    | some (FatEntry.Next next_cluster) => fs.advance_clusters n next_cluster
    | some _ => some (Except.error (FileSystemError.FatError FatError.UnexpectedFatEntry))

/-- The copy loop of `FatFilesystem::read_file`.  `acc` is the part of the
caller's buffer written so far (`read = acc.length` in the source).
`fuel` bounds the loop; exhausting it yields `none`, as does the `u32`
division/remainder by a zero `bytes_per_sector`. -/
def FatFilesystem.read_file_loop (fs : FatFilesystem) (fuel : Nat) (cluster : Nat)
    (position_in_cluster : Nat) (acc : List Nat) (max_to_read : Nat) :
    Option (Except FileSystemError (List Nat)) :=
  match fuel with
  | 0 => none
  | fuel + 1 =>
    if acc.length < max_to_read then
      if fs.boot_sector.bytes_per_sector = 0 then none
      else
        let cluster_start_sector := fs.first_sector_of_cluster cluster
        let cluster_offset := position_in_cluster / fs.boot_sector.bytes_per_sector
        let sector_number := cluster_start_sector + cluster_offset
        let sector_offset := position_in_cluster % fs.boot_sector.bytes_per_sector
        let sector := (fs.read_sectors sector_number 1).drop sector_offset
        let to_read := min sector.length (max_to_read - acc.length)
        let acc := acc ++ sector.take to_read
        let position_in_cluster := position_in_cluster + to_read
        if position_in_cluster ≥ fs.boot_sector.bytes_per_cluster then
          match fs.read_fat_entry cluster with
          | none => none
          | some (FatEntry.Next next_cluster) =>
            fs.read_file_loop fuel next_cluster 0 acc max_to_read
          | some FatEntry.EndOfChain => some (Except.ok acc)
          | some _ =>
            some (Except.error (FileSystemError.FatError FatError.UnexpectedFatEntry))
        else
          fs.read_file_loop fuel cluster position_in_cluster acc max_to_read
    else
      some (Except.ok acc)

/-- `FatFilesystem::read_file` for a buffer of length `buf_len`; returns
the bytes copied into the buffer (their count is the source's `Ok(read)`
value).  The `u32` divisions by `bytes_per_cluster` panic (`none`) when it
is zero. -/
def FatFilesystem.read_file (fs : FatFilesystem) (inode : INode) (position : Nat)
    (buf_len : Nat) (fuel : Nat) : Option (Except FileSystemError (List Nat)) :=
  if inode.is_dir then some (Except.error FileSystemError.IsDirectory)
  else if position ≥ inode.size then some (Except.ok [])
  else
    let remaining_file := inode.size - position
    let max_to_read := min buf_len remaining_file
    if fs.boot_sector.bytes_per_cluster = 0 then none
    else
      let cluster_index := position / fs.boot_sector.bytes_per_cluster
      match fs.advance_clusters cluster_index inode.start_cluster with
      | none => none
      | some (Except.error e) => some (Except.error e)
      | some (Except.ok cluster) =>
        fs.read_file_loop fuel cluster (position % fs.boot_sector.bytes_per_cluster)
          [] max_to_read

/-- The FAT-entry value the specification describes, written with the
claim's own arithmetic (offsets `n*3/2`, `n*2`, `n*4`; nibble sums for
FAT12; little-endian `u16`/`u32` with a 28-bit mask). -/
def fatSpecValue (ty : FatType) (fat : List Nat) (n : Nat) : Nat :=
  match ty with
  | FatType.Fat12 =>
    if n % 2 = 0 then
      fat.getD (n * 3 / 2) 0 + fat.getD (n * 3 / 2 + 1) 0 % 16 * 256
    else
      fat.getD (n * 3 / 2) 0 / 16 + fat.getD (n * 3 / 2 + 1) 0 * 16
  | FatType.Fat16 => fat.getD (n * 2) 0 + fat.getD (n * 2 + 1) 0 * 256
  | FatType.Fat32 =>
    (fat.getD (n * 4) 0 + fat.getD (n * 4 + 1) 0 * 256 +
        fat.getD (n * 4 + 2) 0 * 65536 + fat.getD (n * 4 + 3) 0 * 16777216) % 2 ^ 28

/-- A concrete FAT16 volume used by several concrete runs: 512-byte
sectors, 2 sectors per cluster, 1 reserved sector, one 1-sector FAT, no
root-directory entries, so `data_start_sector = 2`.  The cached FAT holds
`entry 3 ↦ Next 5` and `entry 5 ↦ EndOfChain`, i.e. the chain
`3 → 5 → EOC`; the device returns byte `addr % 256` at byte offset
`addr`. -/
def fatFsA : FatFilesystem :=
  { start_lba := 0
    size_in_sectors := 9000
    boot_sector :=
      { ty := FatType.Fat16
        boot_sector :=
          { bytes_per_sector := 512
            sectors_per_cluster := 2
            reserved_sectors_count := 1
            number_of_fats := 1
            root_entry_count := 0
            total_sectors_16 := 9000
            fat_size_16 := 1
            total_sectors_32 := 0
            boot_signature_2 := 0xAA55
            fat_size_32 := 0
            root_cluster := 0 } }
    fat := [0xF8, 0xFF, 0xFF, 0xFF, 0, 0, 5, 0, 0, 0, 0xF8, 0xFF]
    device := { sector_size := 512, data := fun addr => addr % 256 } }

/-- The file inode for the `3 → 5 → EOC` chain walk: a plain file of 1500
bytes starting at cluster 3. -/
def inodeA : INode :=
  { name := "A"
    attributes :=
      { read_only := false, hidden := false, system := false
        volume_label := false, directory := false, archive := false }
    start_cluster := 3
    size := 1500 }

/-- Directory-iterator state of a `Normal` (cluster-chain) directory on
`fatFsA`, sitting on the last sector of cluster 3 (sector index 5): the
next sector index, 6, crosses the cluster boundary. -/
def dirIterA : DirectoryIterator :=
  { dir := Directory.Normal inodeA
    current_sector := fatFsA.read_sectors 5 1
    current_sector_index := 5
    current_cluster := 3
    entry_index_in_sector := 0 }

/-- A boot sector record with a valid trailing signature but
`sectors_per_cluster = 0` (nothing in `FatBootSector::new` rules it out
before the division). -/
def fatRawZeroSpc : FatBootSectorRaw :=
  { bytes_per_sector := 512
    sectors_per_cluster := 0
    reserved_sectors_count := 1
    number_of_fats := 2
    root_entry_count := 224
    total_sectors_16 := 2880
    fat_size_16 := 0
    total_sectors_32 := 0
    boot_signature_2 := 0xAA55
    fat_size_32 := 9
    root_cluster := 2 }

/-! ## Virtual memory mapper

Embedding of `src/kernel/src/memory_management/virtual_memory_mapper.rs`.
Page tables live in a directly-mapped page-table memory `PhysMem`:
`tables t i` is 64-bit entry `i` of the table whose (virtual,
directly-mapped) address is `t`.  The physical page allocator and the
`memory_layout` helpers are collaborators outside the source snapshot and
are modelled from the spec. -/

def PTE_PRESENT : Nat := 1
def PTE_WRITABLE : Nat := 2
def PTE_USER : Nat := 4
def PTE_HUGE_PAGE : Nat := 128
def ADDR_MASK : Nat := 0x00000000FFFFF000
def KERNEL_L4_INDEX : Nat := 0x1FF
def PAGE_4K : Nat := 4096

/-- `Modelled from the spec:` directly-mapped kernel addressing satisfies
`virt = phys + KERNEL_BASE` (`memory_layout` is not part of the source
snapshot); the base's value is implementation-defined and fixed here. -/
def KERNEL_BASE : Nat := 0xFFFFFFFF80000000

def physical2virtual (p : Nat) : Nat := p + KERNEL_BASE

def virtual2physical (v : Nat) : Nat := v - KERNEL_BASE

/-- The bitwise complement of a `u64`. -/
def u64_not (x : Nat) : Nat := 0xFFFFFFFFFFFFFFFF ^^^ x

def get_l4 (addr : Nat) : Nat := (addr >>> 39) &&& 0x1FF

def get_l3 (addr : Nat) : Nat := (addr >>> 30) &&& 0x1FF

def get_l2 (addr : Nat) : Nat := (addr >>> 21) &&& 0x1FF

def get_l1 (addr : Nat) : Nat := (addr >>> 12) &&& 0x1FF

structure VirtualMemoryMapEntry where
  virtual_address : Nat
  physical_address : Option Nat
  size : Nat
  flags : Nat

/-- Page-table memory plus the allocator model: `nextFrame` is the bump
state of the physical page allocator, `freed` the addresses handed back to
`free`. -/
structure PhysMem where
  tables : Nat → Nat → Nat
  nextFrame : Nat
  freed : List Nat

/-- `Modelled from the spec:` the address of the `k`-th page the physical
page allocator hands out, as a directly-mapped virtual address (fresh,
4 KiB aligned, physical part below `2^32` while `k` stays below
`2^20`). -/
def allocAddr (k : Nat) : Nat := KERNEL_BASE + 4096 * (k + 1)

/-- `Modelled from the spec:` `alloc_zeroed()` returns a fresh zeroed
4 KiB page (it panics on OOM, which the unbounded model never hits). -/
def PhysMem.alloc_zeroed (m : PhysMem) : Nat × PhysMem :=
  (allocAddr m.nextFrame,
    { m with
      tables := fun t i => if t = allocAddr m.nextFrame then 0 else m.tables t i
      nextFrame := m.nextFrame + 1 })

/-- `Modelled from the spec:` `free(addr)` returns a page to the
allocator; the model records the freed address. -/
def PhysMem.free (m : PhysMem) (addr : Nat) : PhysMem :=
  { m with freed := addr :: m.freed }

/-- Store value `v` into entry `i` of the table at `t`. -/
def PhysMem.setEntry (m : PhysMem) (t i v : Nat) : PhysMem :=
  { m with tables := fun t' i' => if t' = t ∧ i' = i then v else m.tables t' i' }

/-- `PageDirectoryTablePtr::from_entry`. -/
def fromEntry (entry : Nat) : Nat := physical2virtual (entry &&& ADDR_MASK)

structure VirtualMemoryMapper where
  page_map_l4 : Nat
  is_user : Bool

/-- `VirtualMemoryMapper::new`: a freshly allocated zeroed L4 root. -/
def VirtualMemoryMapper.new (m : PhysMem) : VirtualMemoryMapper × PhysMem :=
  let am := m.alloc_zeroed
  ({ page_map_l4 := am.1, is_user := false }, am.2)

/-- `VirtualMemoryMapper::clone_kernel_mem`: read the source's kernel L3
table address, allocate a fresh L4 root (`Self::new`) and a fresh kernel
L3 table, copy the source L3's 512 entries (`for i in 0..=0x1FF`) into the
fresh table, and install it in the new root's kernel slot with
`PRESENT | WRITABLE`. -/
def VirtualMemoryMapper.clone_kernel_mem (vm : VirtualMemoryMapper) (m : PhysMem) :
    VirtualMemoryMapper × PhysMem :=
  let this_kernel_l4 := fromEntry (m.tables vm.page_map_l4 KERNEL_L4_INDEX)
  let vmm := VirtualMemoryMapper.new m
  let new_vm := vmm.1
  let am := vmm.2.alloc_zeroed
  let new_kernel_l4 := am.1
  let m2 := am.2
  let m3 : PhysMem := { m2 with
    tables := fun t i =>
      if t = new_kernel_l4 ∧ i ≤ 0x1FF then m2.tables this_kernel_l4 i else m2.tables t i }
  (new_vm,
    m3.setEntry new_vm.page_map_l4 KERNEL_L4_INDEX
      (virtual2physical new_kernel_l4 ||| PTE_PRESENT ||| PTE_WRITABLE))

/-- `Modelled from the spec:` `align_range` (from `memory_layout`, not in
the source snapshot) aligns the start down to the page size and rounds the
size up so the aligned range covers the requested bytes. -/
def align_range (start size page : Nat) : Nat × Nat :=
  (start / page * page, (start + size + (page - 1)) / page * page - start / page * page)

/-- One level of the `unmap` walk: panic (`none`) when the entry is not
present, otherwise remove the flag bits (`*entry &= !flags`) and hand back
the updated memory together with `from_entry` of the updated entry. -/
def unmap_level (m : PhysMem) (t i flags : Nat) : Option (PhysMem × Nat) :=
  if m.tables t i &&& PTE_PRESENT = 0 then none
  else
    some (m.setEntry t i (m.tables t i &&& u64_not flags),
      fromEntry (m.tables t i &&& u64_not flags))

/-- The per-page body of the `while size > 0` loop of
`VirtualMemoryMapper::unmap`: strip `flags` from the traversed L4, L3 and
L2 entries, panic on a non-present entry at any level, free the leaf frame
when `is_allocated`, and zero the L1 leaf entry. -/
def VirtualMemoryMapper.unmap_page (vm : VirtualMemoryMapper) (flags : Nat)
    (is_allocated : Bool) (m : PhysMem) (virtual_address : Nat) : Option PhysMem :=
  (unmap_level m vm.page_map_l4 (get_l4 virtual_address) flags).bind fun ml3 =>
    (unmap_level ml3.1 ml3.2 (get_l3 virtual_address) flags).bind fun ml2 =>
      (unmap_level ml2.1 ml2.2 (get_l2 virtual_address) flags).bind fun ml1 =>
        if ml1.1.tables ml1.2 (get_l1 virtual_address) &&& PTE_PRESENT = 0 then none
        else
          some ((if is_allocated then
              ml1.1.free (fromEntry (ml1.1.tables ml1.2 (get_l1 virtual_address)))
            else ml1.1).setEntry ml1.2 (get_l1 virtual_address) 0)

/-- The `while size > 0` loop of `VirtualMemoryMapper::unmap`; the aligned
size is a multiple of 4 KiB and decreases by a page per iteration, with
the source's early `break` when it reaches zero (before advancing the
address). -/
def VirtualMemoryMapper.unmap_loop (vm : VirtualMemoryMapper) (flags : Nat)
    (is_allocated : Bool) : Nat → PhysMem → Nat → Nat → Option PhysMem
  | 0, _, _, _ => none
  | fuel + 1, m, virtual_address, size =>
    if size = 0 then some m
    else
      match vm.unmap_page flags is_allocated m virtual_address with
      | none => none
      | some m =>
        if size - PAGE_4K = 0 then some m
        else
          vm.unmap_loop flags is_allocated fuel m (virtual_address + PAGE_4K) (size - PAGE_4K)

/-- `VirtualMemoryMapper::unmap`: assert no physical address was supplied,
align the range, assert it is non-empty, then run the per-page loop. -/
def VirtualMemoryMapper.unmap (vm : VirtualMemoryMapper) (m : PhysMem)
    (entry : VirtualMemoryMapEntry) (is_allocated : Bool) : Option PhysMem :=
  if entry.physical_address.isSome then none
  else
    let ar := align_range entry.virtual_address entry.size PAGE_4K
    if ar.2 = 0 then none
    else vm.unmap_loop entry.flags is_allocated (ar.2 / PAGE_4K + 1) m ar.1 ar.2

/-- A concrete source address space for `clone_kernel_mem`: the L4 root at
`KERNEL_BASE + 0x1000` whose kernel slot points at the L3 table at
physical `0x2000`, which maps the global kernel index `0x1FE`; the
allocator will hand out `allocAddr 9` and `allocAddr 10` next. -/
def physMemB : PhysMem :=
  { tables := fun t i =>
      if t = KERNEL_BASE + 0x1000 ∧ i = KERNEL_L4_INDEX then 0x2000 ||| 3
      else if t = KERNEL_BASE + 0x2000 ∧ i = 0x1FE then 0x5000 ||| 3
      else 0
    nextFrame := 9
    freed := [] }

def vmB : VirtualMemoryMapper := { page_map_l4 := KERNEL_BASE + 0x1000, is_user := false }

/-- A concrete address space for the multi-page `unmap` run: user address
0 walks L4 slot 0 → L3 at `0x2000` → L2 at `0x3000` → L1 at `0x4000`,
whose slots 0, 1 and 2 map three user pages, all installed with
`PRESENT | WRITABLE | USER` up the tree. -/
def physMemC : PhysMem :=
  { tables := fun t i =>
      if t = KERNEL_BASE + 0x1000 ∧ i = 0 then 0x2000 ||| 7
      else if t = KERNEL_BASE + 0x2000 ∧ i = 0 then 0x3000 ||| 7
      else if t = KERNEL_BASE + 0x3000 ∧ i = 0 then 0x4000 ||| 7
      else if t = KERNEL_BASE + 0x4000 ∧ i = 0 then 0x10000 ||| 7
      else if t = KERNEL_BASE + 0x4000 ∧ i = 1 then 0x11000 ||| 7
      else if t = KERNEL_BASE + 0x4000 ∧ i = 2 then 0x12000 ||| 7
      else 0
    nextFrame := 100
    freed := [] }

def vmC : VirtualMemoryMapper := { page_map_l4 := KERNEL_BASE + 0x1000, is_user := true }

/-- Unmap the first two of the three pages, with
`flags = WRITABLE | USER` and `is_allocated = true`. -/
def entryC : VirtualMemoryMapEntry :=
  { virtual_address := 0, physical_address := none, size := 0x2000
    flags := PTE_WRITABLE ||| PTE_USER }

/-- A single-page unmap of the middle page (virtual address `0x1000`) of
`physMemC`, stripping `WRITABLE | USER`. -/
def entryC1 : VirtualMemoryMapEntry :=
  { virtual_address := 0x1000, physical_address := none, size := 0x1000
    flags := PTE_WRITABLE ||| PTE_USER }

/-! ## ACPI AML parser

Embedding of `src/kernel/src/acpi/aml.rs`.  Bytes are `Nat`s; the byte
slice is a `List Nat` with a cursor.  The shared
`Rc<RefCell<BTreeMap<...>>>` method/name cells are modelled by an explicit
`Store` of cells addressed by index: cloning a parser (or handing the
shared state to an inner parser) copies the cell *reference*, exactly as
`Rc::clone` does, so mutations through any clone are visible to all.
Panics (`todo!`, `panic!`, failed `assert!`) are the `fatal` outcome;
`nofuel` only signals that the step bound of this embedding was too small
and is never produced by the embedded code itself. -/

namespace Aml

inductive AmlParseError where
  | UnexpectedEndOfCode
  | InvalidPkgLengthLead
  | RemainingBytes (n : Nat)
  | CannotMoveBackward
  deriving Repr, DecidableEq

/-- Outcome of a parsing step: `Ok`, a propagated `Err`, a panic
(`fatal`), or an exhausted step bound (`nofuel`). -/
inductive AmlOut (α : Type) where
  | ok (a : α)
  | err (e : AmlParseError)
  | fatal
  | nofuel
  deriving Repr

/-- The backing store for the `Rc<RefCell<...>>` cells: `methodCells r` is
the method map (`method name → arg count`) behind reference `r`,
`nameCells r` the known-names set behind reference `r`. -/
structure Store where
  methodCells : List (List (String × Nat))
  nameCells : List (List String)

def getMethods (s : Store) (r : Nat) : List (String × Nat) := s.methodCells.getD r []

def setMethodsCell (s : Store) (r : Nat) (v : List (String × Nat)) : Store :=
  { s with methodCells := s.methodCells.set r v }

def getNames (s : Store) (r : Nat) : List String := s.nameCells.getD r []

def setNamesCell (s : Store) (r : Nat) (v : List String) : Store :=
  { s with nameCells := s.nameCells.set r v }

/-- `BTreeMap::insert`: replace the binding of `k` or append it. -/
def mapInsert (m : List (String × Nat)) (k : String) (v : Nat) : List (String × Nat) :=
  match m with
  | [] => [(k, v)]
  | (k', v') :: rest => if k' = k then (k, v) :: rest else (k', v') :: mapInsert rest k v

/-- `BTreeMap` lookup (used through `iter().find(...)`). -/
def mapFind (m : List (String × Nat)) (k : String) : Option Nat :=
  match m with
  | [] => none
  | (k', v') :: rest => if k' = k then some v' else mapFind rest k

/-- `BTreeMap::extend`. -/
def mapExtend (m other : List (String × Nat)) : List (String × Nat) :=
  other.foldl (fun acc kv => mapInsert acc kv.1 kv.2) m

/-- `BTreeSet::insert`. -/
def setInsert (s : List String) (k : String) : List String :=
  if k ∈ s then s else s ++ [k]

/-- `BTreeSet::extend`. -/
def setExtend (s other : List String) : List String := other.foldl setInsert s

/-- `struct State`: the current scope name, the known scopes (scope name
paired with the *reference* to its method cell), and the references to the
shared method map and name set. -/
structure State where
  scope : String
  scopes : List (String × Nat)
  methods : Nat
  names : Nat

/-- `State::default()` as built by `parse_aml`: fresh cells 0 of the two
stores. -/
def initState : State := { scope := "", scopes := [], methods := 0, names := 0 }

/-- `State::find_name`. -/
def State.find_name (st : State) (s : Store) (name : String) : Bool :=
  (getNames s st.names).contains name

/-- `State::find_method`: for a name longer than 4 bytes, split off the
last 4-byte segment, strip leading `\\`/`^` from the scope part, and look
the segment up in the first known scope whose stripped name matches;
otherwise look the name up in the current method map. -/
def State.find_method (st : State) (s : Store) (name : String) : Option Nat :=
  let looked : Option (Nat × String) :=
    if name.length > 4 then
      let scope_name := (name.take (name.length - 5)).dropWhile fun c => c = '\\' ∨ c = '^'
      let method_name := name.drop (name.length - 4)
      match st.scopes.find? (fun x =>
          (x.1.dropWhile fun c => c = '\\' ∨ c = '^') = scope_name) with
      | some x => some (x.2, method_name)
      | none => none
    else
      some (st.methods, name)
  match looked with
  | none => none
  | some cellAndName => mapFind (getMethods s cellAndName.1) cellAndName.2

/-- `struct Parser`: the borrowed code slice, the cursor and the state. -/
structure Parser where
  code : List Nat
  pos : Nat
  state : State

def Parser.remaining_bytes (p : Parser) : Nat := p.code.length - p.pos

def Parser.get_next_byte (p : Parser) : AmlOut Nat × Parser :=
  if p.code.length ≤ p.pos then (AmlOut.err AmlParseError.UnexpectedEndOfCode, p)
  else (AmlOut.ok (p.code.getD p.pos 0), { p with pos := p.pos + 1 })

def Parser.peek_next_byte (p : Parser) : AmlOut Nat × Parser :=
  if p.code.length ≤ p.pos then (AmlOut.err AmlParseError.UnexpectedEndOfCode, p)
  else (AmlOut.ok (p.code.getD p.pos 0), p)

def Parser.forward (p : Parser) (n : Nat) : AmlOut Unit × Parser :=
  if p.code.length < p.pos + n then (AmlOut.err AmlParseError.UnexpectedEndOfCode, p)
  else (AmlOut.ok (), { p with pos := p.pos + n })

/-- `Parser::backward`; `self.pos -= n` underflows (panics) when
`n` exceeds a non-zero cursor. -/
def Parser.backward (p : Parser) (n : Nat) : AmlOut Unit × Parser :=
  if p.pos = 0 then (AmlOut.err AmlParseError.CannotMoveBackward, p)
  else if p.pos < n then (AmlOut.fatal, p)
  else (AmlOut.ok (), { p with pos := p.pos - n })

/-- The `for i in 0..following_bytes` loop of `get_pkg_length`, or-ing
each following byte shifted by `8*i + 4` into `length`. -/
def pkgFollowLoop : Nat → Nat → Nat → Parser → AmlOut Nat × Parser
  | length, _, 0, p => (AmlOut.ok length, p)
  | length, i, k + 1, p =>
    match p.get_next_byte with
    | (AmlOut.ok byte, p) => pkgFollowLoop (length ||| (byte <<< (8 * i + 4))) (i + 1) k p
    | (AmlOut.err e, p) => (AmlOut.err e, p)
    | (AmlOut.fatal, p) => (AmlOut.fatal, p)
    | (AmlOut.nofuel, p) => (AmlOut.nofuel, p)

/-- `Parser::get_pkg_length`.  The returned length is kept as a
mathematical integer: the source subtracts the bytes used by the encoding
from a `usize`, so a negative value here is exactly an underflow of the
source's subtraction. -/
def Parser.get_pkg_length (p : Parser) : AmlOut Int × Parser :=
  match p.get_next_byte with
  | (AmlOut.ok lead_byte, p) =>
    let following_bytes := lead_byte >>> 6
    if following_bytes = 0 then
      (AmlOut.ok ((lead_byte &&& 0x3F : Nat) - (1 : Int)), p)
    else if (lead_byte >>> 4) &&& 0b11 ≠ 0 then
      (AmlOut.err AmlParseError.InvalidPkgLengthLead, p)
    else
      match pkgFollowLoop (lead_byte &&& 0x0F) 0 following_bytes p with
      | (AmlOut.ok length, p) =>
        (AmlOut.ok ((length : Int) - following_bytes - 1), p)
      | (AmlOut.err e, p) => (AmlOut.err e, p)
      | (AmlOut.fatal, p) => (AmlOut.fatal, p)
      | (AmlOut.nofuel, p) => (AmlOut.nofuel, p)
  | (AmlOut.err e, p) => (AmlOut.err e, p)
  | (AmlOut.fatal, p) => (AmlOut.fatal, p)
  | (AmlOut.nofuel, p) => (AmlOut.nofuel, p)

/-- The follow-byte part of the package length as the specification's
formula states it: each following byte shifted left by `8*i + 4`, or-ed
together. -/
def pkgFollowValueAux (code : List Nat) : Nat → Nat → Nat → Nat
  | _, _, 0 => 0
  | pos, i, k + 1 =>
    (code.getD pos 0 <<< (8 * i + 4)) ||| pkgFollowValueAux code (pos + 1) (i + 1) k

/-- The encoded package length as the specification's formula states it:
the low 6 bits of the lead byte when the high 2 bits (`follow`) are zero,
otherwise the low 4 bits or-ed with the following bytes shifted by
`8*i + 4`. -/
def pkgEncodedLength (code : List Nat) (pos : Nat) : Nat :=
  if code.getD pos 0 >>> 6 = 0 then code.getD pos 0 &&& 0x3F
  else (code.getD pos 0 &&& 0x0F) |||
    pkgFollowValueAux code (pos + 1) 0 (code.getD pos 0 >>> 6)

end Aml

namespace Aml

set_option maxHeartbeats 2000000 in
mutual

inductive DataObject where
  | ConstZero
  | ConstOne
  | ConstOnes
  | ByteConst (b : Nat)
  | WordConst (w : Nat)
  | DWordConst (d : Nat)
  | QWordConst (q : Nat)

inductive AmlTerm where
  | Scope (s : ScopeObj)
  | Region (r : RegionObj)
  | Field (f : FieldDef)
  | IndexField (f : IndexFieldDef)
  | Device (s : ScopeObj)
  | Processor (p : ProcessorDeprecated)
  | PowerResource (p : PowerResource)
  | Method (m : MethodObj)
  | NameObj (n : String) (t : TermArg)
  | Package (n : Nat) (l : List TermArg)
  | VarPackage (t : TermArg) (l : List TermArg)
  | Alias (a : String) (b : String)
  | String (s : String)
  | Buffer (t : TermArg) (bytes : List Nat)
  | ToHexString (a : TermArg) (t : Target)
  | ToBuffer (a : TermArg) (t : Target)
  | ToDecimalString (a : TermArg) (t : Target)
  | ToInteger (a : TermArg) (t : Target)
  | Add (a : TermArg) (b : TermArg) (t : Target)
  | Concat (a : TermArg) (b : TermArg) (t : Target)
  | Subtract (a : TermArg) (b : TermArg) (t : Target)
  | Multiply (a : TermArg) (b : TermArg) (t : Target)
  | Divide (a : TermArg) (b : TermArg) (t : Target) (u : Target)
  | ShiftLeft (a : TermArg) (b : TermArg) (t : Target)
  | ShiftRight (a : TermArg) (b : TermArg) (t : Target)
  | And (a : TermArg) (b : TermArg) (t : Target)
  | Nand (a : TermArg) (b : TermArg) (t : Target)
  | Or (a : TermArg) (b : TermArg) (t : Target)
  | Nor (a : TermArg) (b : TermArg) (t : Target)
  | Xor (a : TermArg) (b : TermArg) (t : Target)
  | Not (a : TermArg) (t : Target)
  | SizeOf (t : Target)
  | Store (a : TermArg) (t : Target)
  | RefOf (t : Target)
  | Increment (t : Target)
  | Decrement (t : Target)
  | While (p : PredicateBlock)
  | If (p : PredicateBlock)
  | Else (l : List AmlTerm)
  | Noop
  | Return (a : TermArg)
  | Break
  | LAnd (a : TermArg) (b : TermArg)
  | LOr (a : TermArg) (b : TermArg)
  | LNot (a : TermArg)
  | LNotEqual (a : TermArg) (b : TermArg)
  | LLessEqual (a : TermArg) (b : TermArg)
  | LGreaterEqual (a : TermArg) (b : TermArg)
  | LEqual (a : TermArg) (b : TermArg)
  | LGreater (a : TermArg) (b : TermArg)
  | LLess (a : TermArg) (b : TermArg)
  | FindSetLeftBit (a : TermArg) (t : Target)
  | FindSetRightBit (a : TermArg) (t : Target)
  | DerefOf (a : TermArg)
  | ConcatRes (a : TermArg) (b : TermArg) (t : Target)
  | Mod (a : TermArg) (b : TermArg) (t : Target)
  | Notify (t : Target) (a : TermArg)
  | Index (a : TermArg) (b : TermArg) (t : Target)
  | Mutex (n : String) (b : Nat)
  | Event (n : String)
  | CondRefOf (a : Target) (b : Target)
  | Aquire (t : Target) (w : Nat)
  | Signal (t : Target)
  | Wait (t : Target) (a : TermArg)
  | Reset (t : Target)
  | Release (t : Target)
  | Stall (a : TermArg)
  | Sleep (a : TermArg)
  | CreateDWordField (a : TermArg) (b : TermArg) (n : String)
  | CreateWordField (a : TermArg) (b : TermArg) (n : String)
  | CreateByteField (a : TermArg) (b : TermArg) (n : String)
  | CreateBitField (a : TermArg) (b : TermArg) (n : String)
  | CreateQWordField (a : TermArg) (b : TermArg) (n : String)
  | MethodCall (n : String) (args : List TermArg)

inductive TermArg where
  | Expression (t : AmlTerm)
  | DataObject (d : DataObject)
  | Arg (n : Nat)
  | Local (n : Nat)
  | MethodCall (n : String) (args : List TermArg)
  | Name (n : String)

inductive Target where
  | None
  | Arg (n : Nat)
  | Local (n : Nat)
  | Name (n : String)
  | Debug
  | DerefOf (t : TermArg)
  | RefOf (t : Target)
  | Index (a : TermArg) (b : TermArg) (t : Target)

inductive FieldElement where
  | ReservedField (n : Nat)
  | NamedField (s : String) (n : Nat)

inductive ScopeObj where
  | mk (name : String) (term_list : List AmlTerm)

inductive RegionObj where
  | mk (name : String) (region_space : Nat) (region_offset : TermArg) (region_length : TermArg)

inductive FieldDef where
  | mk (name : String) (flags : Nat) (fields : List FieldElement)

inductive IndexFieldDef where
  | mk (name : String) (index_name : String) (flags : Nat) (fields : List FieldElement)

inductive MethodObj where
  | mk (name : String) (flags : Nat) (term_list : List AmlTerm)

inductive PredicateBlock where
  | mk (predicate : TermArg) (term_list : List AmlTerm)

inductive ProcessorDeprecated where
  | mk (name : String) (unk1 : Nat) (unk2 : Nat) (unk3 : Nat) (term_list : List AmlTerm)

inductive PowerResource where
  | mk (name : String) (system_level : Nat) (resource_order : Nat) (term_list : List AmlTerm)

end

inductive AmlCode where
  | mk (term_list : List AmlTerm)

def MethodObj.name : MethodObj → String
  | MethodObj.mk n _ _ => n

/-- `MethodObj::arg_count`: the low 3 bits of the method flags. -/
def MethodObj.arg_count : MethodObj → Nat
  | MethodObj.mk _ flags _ => flags &&& 0b111

/-- The parsing monad: a computation threading the current parser and the
shared-cell store.  Both are returned even on `err`/`fatal`, because a
Rust `?`-propagated error leaves `&mut self` and the `Rc` cells as the
failing callee left them. -/
def M (α : Type) : Type := Parser → Store → AmlOut α × Parser × Store

instance : Monad M where
  pure a := fun p s => (AmlOut.ok a, p, s)
  bind x f := fun p s =>
    match x p s with
    | (AmlOut.ok a, p, s) => f a p s
    | (AmlOut.err e, p, s) => (AmlOut.err e, p, s)
    | (AmlOut.fatal, p, s) => (AmlOut.fatal, p, s)
    | (AmlOut.nofuel, p, s) => (AmlOut.nofuel, p, s)

def fatalM {α : Type} : M α := fun p s => (AmlOut.fatal, p, s)

def nofuelM {α : Type} : M α := fun p s => (AmlOut.nofuel, p, s)

def throwE {α : Type} (e : AmlParseError) : M α := fun p s => (AmlOut.err e, p, s)

def getP : M Parser := fun p s => (AmlOut.ok p, p, s)

/-- Lift a pure parser operation into `M`. -/
def liftP {α : Type} (f : Parser → AmlOut α × Parser) : M α :=
  fun p s =>
    match f p with
    | (r, p) => (r, p, s)

def getNextByteM : M Nat := liftP Parser.get_next_byte

def peekNextByteM : M Nat := liftP Parser.peek_next_byte

def forwardM (n : Nat) : M Unit := liftP fun p => p.forward n

def backwardM (n : Nat) : M Unit := liftP fun p => p.backward n

def getPkgLengthM : M Int := liftP Parser.get_pkg_length

/-- `Parser::check_empty`. -/
def checkEmpty : M Unit := fun p s =>
  if p.pos ≠ p.code.length then
    (AmlOut.err (AmlParseError.RemainingBytes (p.code.length - p.pos)), p, s)
  else
    (AmlOut.ok (), p, s)

/-- `self.state.methods.borrow_mut().insert(name, n)`. -/
def insertMethodM (name : String) (n : Nat) : M Unit := fun p s =>
  (AmlOut.ok (),
    p, setMethodsCell s p.state.methods (mapInsert (getMethods s p.state.methods) name n))

/-- `self.state.names.borrow_mut().insert(name)`. -/
def insertNameM (name : String) : M Unit := fun p s =>
  (AmlOut.ok (), p, setNamesCell s p.state.names (setInsert (getNames s p.state.names) name))

def findMethodM (name : String) : M (Option Nat) := fun p s =>
  (AmlOut.ok (State.find_method p.state s name), p, s)

def findNameM (name : String) : M Bool := fun p s =>
  (AmlOut.ok (State.find_name p.state s name), p, s)

/-- Set `self.state.scope` (done by `ScopeObj::parse` on the inner
parser). -/
def setScopeM (name : String) : M Unit := fun p s =>
  (AmlOut.ok (), { p with state := { p.state with scope := name } }, s)

/-- `Parser::get_inner_parser`: decode a package length, split off a
sub-parser over exactly that many bytes (sharing the method/name cells and
the scopes vector, with an empty current scope), and advance the outer
cursor past the package.  A negative decoded length is the source's
`usize` underflow and an oversized one an out-of-bounds slice: both
panic. -/
def getInnerParser : M Parser := fun p s =>
  match p.get_pkg_length with
  | (AmlOut.ok pkg_length, p) =>
    if pkg_length < 0 then (AmlOut.fatal, p, s)
    else if p.code.length < p.pos + pkg_length.toNat then (AmlOut.fatal, p, s)
    else
      (AmlOut.ok
        { code := (p.code.drop p.pos).take pkg_length.toNat
          pos := 0
          state :=
            { scope := ""
              scopes := p.state.scopes
              methods := p.state.methods
              names := p.state.names } },
        { p with pos := p.pos + pkg_length.toNat }, s)
  | (AmlOut.err e, p) => (AmlOut.err e, p, s)
  | (AmlOut.fatal, p) => (AmlOut.fatal, p, s)
  | (AmlOut.nofuel, p) => (AmlOut.nofuel, p, s)

/-- Run `act` on an inner parser (sharing the store), then restore the
outer parser; the inner parser's final form is returned alongside the
result, as the source keeps using `inner` after sub-parses. -/
def runOn {α : Type} (inner : Parser) (act : M α) : M (α × Parser) := fun p s =>
  match act inner s with
  | (AmlOut.ok a, inner', s') => (AmlOut.ok (a, inner'), p, s')
  | (AmlOut.err e, _, s') => (AmlOut.err e, p, s')
  | (AmlOut.fatal, _, s') => (AmlOut.fatal, p, s')
  | (AmlOut.nofuel, _, s') => (AmlOut.nofuel, p, s')

/-- The merge step of `State::move_to_parent` for one child scope: extend
the first parent scope with the same name, or push the (name, cell)
pair. -/
def mergeScopeStep (acc : List (String × Nat) × Store) (sc : String × Nat) :
    List (String × Nat) × Store :=
  match acc.1.find? fun x => x.1 = sc.1 with
  | some x =>
    (acc.1, setMethodsCell acc.2 x.2 (mapExtend (getMethods acc.2 x.2) (getMethods acc.2 sc.2)))
  | none => (acc.1 ++ [sc], acc.2)

/-- `State::move_to_parent`: fold the child's method map and name set into
the parent's cells, merge the child's scope list into the parent's, and
finally push `(child.scope, child.methods)`. -/
def moveToParentM (child : State) : M Unit := fun p s =>
  let s1 := setMethodsCell s p.state.methods
    (mapExtend (getMethods s p.state.methods) (getMethods s child.methods))
  let s2 := setNamesCell s1 p.state.names
    (setExtend (getNames s1 p.state.names) (getNames s1 child.names))
  let merged := child.scopes.foldl mergeScopeStep (p.state.scopes, s2)
  (AmlOut.ok (),
    { p with state :=
        { p.state with scopes := merged.1 ++ [(child.scope, child.methods)] } },
    merged.2)

/-- `Parser::try_parse_local`. -/
def tryParseLocal (lead : Nat) : Option Nat :=
  if 0x60 ≤ lead ∧ lead ≤ 0x67 then some (lead - 0x60) else none

/-- `Parser::try_parse_arg`. -/
def tryParseArg (lead : Nat) : Option Nat :=
  if 0x68 ≤ lead ∧ lead ≤ 0x6E then some (lead - 0x68) else none

/-- The inner `parse_name_path` helper: an empty path on a `0x00` byte,
otherwise the lead character followed by exactly three characters from
`A`-`Z`, `_`, `0`-`9` (anything else panics). -/
def pushNamePathChar (s : String) : M String := do
  let byte ← getNextByteM
  if (0x41 ≤ byte ∧ byte ≤ 0x5A) ∨ byte = 0x5F ∨ (0x30 ≤ byte ∧ byte ≤ 0x39) then
    pure (s.push (Char.ofNat byte))
  else
    fatalM

def parseNamePath : M String := do
  let byte ← getNextByteM
  if byte = 0 then
    pure ""
  else do
    let s := String.push "" (Char.ofNat byte)
    let s ← pushNamePathChar s
    let s ← pushNamePathChar s
    let s ← pushNamePathChar s
    pure s

/-- The `for i in 0..count` loop of the `/` (multi-name path) case:
segments joined by `.` except after the last. -/
def multiNamePathLoop : Nat → String → M String
  | 0, acc => pure acc
  | rem + 1, acc => do
    let seg ← parseNamePath
    let acc := acc ++ seg
    let acc := if rem = 0 then acc else acc ++ "."
    multiNamePathLoop rem acc

/-- The `loop` of the `0x0d` (string) arm of `try_parse_term`: bytes up to
a terminating `0x00` are pushed as characters. -/
def readStringLoop : Nat -> String -> M String
  | 0, _ => nofuelM
  | fuel + 1, acc => do
    let byte <- getNextByteM
    if byte = 0 then pure acc
    else readStringLoop fuel (acc.push (Char.ofNat byte))

/-- The `while self.peek_next_byte()? == b'^'` loop of `try_parse_name`. -/
def caretLoop : Nat -> String -> M String
  | 0, _ => nofuelM
  | fuel + 1, acc => do
    let c <- peekNextByteM
    if c = 0x5E then do
      forwardM 1
      caretLoop fuel (acc.push (Char.ofNat 0x5E))
    else pure acc

/-- The argument shapes on which `predict_possible_args` breaks out of its
probing loop: a plain name, or a `Store`/`Notify` expression. -/
def breakArg : TermArg -> Bool
  | TermArg.Name _ => true
  | TermArg.Expression (AmlTerm.Store _ _) => true
  | TermArg.Expression (AmlTerm.Notify _ _) => true
  | _ => false

set_option maxHeartbeats 4000000 in
mutual

/-- `Parser::parse_term`: consume an opcode byte and dispatch; a `None`
from `try_parse_term` is the source's `todo!` panic. -/
def parseTerm : Nat -> M AmlTerm
  | 0 => nofuelM
  | fuel + 1 => do
    let byte <- getNextByteM
    match <- tryParseTerm fuel byte with
    | some t => pure t
    | none => fatalM
termination_by structural fuel => fuel


/-- `Parser::try_parse_term`, all opcode arms in source order; unknown
extended (`0x5b`) opcodes are the source's `todo!` panic. -/
def tryParseTerm : Nat -> Nat -> M (Option AmlTerm)
  | 0, _ => nofuelM
  | fuel + 1, opcode =>
    if opcode = 0x06 then do
      let original_name <- parseName fuel
      let aliased_name <- parseName fuel
      insertNameM aliased_name
      pure (some (AmlTerm.Alias original_name aliased_name))
    else if opcode = 0x08 then do
      let name <- parseName fuel
      insertNameM name
      let arg <- parseTermArg fuel
      pure (some (AmlTerm.NameObj name arg))
    else if opcode = 0x0d then do
      let str <- readStringLoop fuel ""
      pure (some (AmlTerm.String str))
    else if opcode = 0x10 then do
      let sc <- scopeObjParse fuel
      pure (some (AmlTerm.Scope sc))
    else if opcode = 0x11 then do
      let inner <- getInnerParser
      let r <- runOn inner (parseTermArg fuel)
      pure (some (AmlTerm.Buffer r.1 (r.2.code.drop r.2.pos)))
    else if opcode = 0x12 then do
      let inner <- getInnerParser
      let r <- runOn inner (do
        let package_size <- getNextByteM
        let elems <- packageElementsLoop fuel
        checkEmpty
        pure (package_size, elems))
      pure (some (AmlTerm.Package r.1.1 r.1.2))
    else if opcode = 0x13 then do
      let inner <- getInnerParser
      let r <- runOn inner (do
        let package_size <- parseTermArg fuel
        let elems <- packageElementsLoop fuel
        checkEmpty
        pure (package_size, elems))
      pure (some (AmlTerm.VarPackage r.1.1 r.1.2))
    else if opcode = 0x14 then do
      let method <- methodObjParse fuel
      insertMethodM method.name method.arg_count
      pure (some (AmlTerm.Method method))
    else if opcode = 0x5b then do
      let inner_opcode <- getNextByteM
      if inner_opcode = 0x01 then do
        let n <- parseName fuel
        let b <- getNextByteM
        pure (some (AmlTerm.Mutex n b))
      else if inner_opcode = 0x02 then do
        let n <- parseName fuel
        pure (some (AmlTerm.Event n))
      else if inner_opcode = 0x12 then do
        let a <- parseTarget fuel
        let b <- parseTarget fuel
        pure (some (AmlTerm.CondRefOf a b))
      else if inner_opcode = 0x21 then do
        let a <- parseTermArg fuel
        pure (some (AmlTerm.Stall a))
      else if inner_opcode = 0x22 then do
        let a <- parseTermArg fuel
        pure (some (AmlTerm.Sleep a))
      else if inner_opcode = 0x23 then do
        let t <- parseTarget fuel
        let b0 <- getNextByteM
        let b1 <- getNextByteM
        pure (some (AmlTerm.Aquire t (b0 ||| (b1 <<< 8))))
      else if inner_opcode = 0x24 then do
        let t <- parseTarget fuel
        pure (some (AmlTerm.Signal t))
      else if inner_opcode = 0x25 then do
        let t <- parseTarget fuel
        let a <- parseTermArg fuel
        pure (some (AmlTerm.Wait t a))
      else if inner_opcode = 0x26 then do
        let t <- parseTarget fuel
        pure (some (AmlTerm.Reset t))
      else if inner_opcode = 0x27 then do
        let t <- parseTarget fuel
        pure (some (AmlTerm.Release t))
      else if inner_opcode = 0x80 then do
        let r <- regionObjParse fuel
        pure (some (AmlTerm.Region r))
      else if inner_opcode = 0x81 then do
        let f <- fieldDefParse fuel
        pure (some (AmlTerm.Field f))
      else if inner_opcode = 0x82 then do
        let sc <- scopeObjParse fuel
        pure (some (AmlTerm.Device sc))
      else if inner_opcode = 0x83 then do
        let pr <- processorParse fuel
        pure (some (AmlTerm.Processor pr))
      else if inner_opcode = 0x84 then do
        let pr <- powerResourceParse fuel
        pure (some (AmlTerm.PowerResource pr))
      else if inner_opcode = 0x86 then do
        let f <- indexFieldDefParse fuel
        pure (some (AmlTerm.IndexField f))
      else fatalM
    else if opcode = 0x70 then do
      let a <- parseTermArg fuel
      let t <- parseTarget fuel
      pure (some (AmlTerm.Store a t))
    else if opcode = 0x71 then do
      let t <- parseTarget fuel
      pure (some (AmlTerm.RefOf t))
    else if opcode = 0x72 then do
      let a <- parseTermArg fuel
      let b <- parseTermArg fuel
      let t <- parseTarget fuel
      pure (some (AmlTerm.Add a b t))
    else if opcode = 0x73 then do
      let a <- parseTermArg fuel
      let b <- parseTermArg fuel
      let t <- parseTarget fuel
      pure (some (AmlTerm.Concat a b t))
    else if opcode = 0x74 then do
      let a <- parseTermArg fuel
      let b <- parseTermArg fuel
      let t <- parseTarget fuel
      pure (some (AmlTerm.Subtract a b t))
    else if opcode = 0x75 then do
      let t <- parseTarget fuel
      pure (some (AmlTerm.Increment t))
    else if opcode = 0x76 then do
      let t <- parseTarget fuel
      pure (some (AmlTerm.Decrement t))
    else if opcode = 0x77 then do
      let a <- parseTermArg fuel
      let b <- parseTermArg fuel
      let t <- parseTarget fuel
      pure (some (AmlTerm.Multiply a b t))
    else if opcode = 0x78 then do
      let a <- parseTermArg fuel
      let b <- parseTermArg fuel
      let t <- parseTarget fuel
      let u <- parseTarget fuel
      pure (some (AmlTerm.Divide a b t u))
    else if opcode = 0x79 then do
      let a <- parseTermArg fuel
      let b <- parseTermArg fuel
      let t <- parseTarget fuel
      pure (some (AmlTerm.ShiftLeft a b t))
    else if opcode = 0x7A then do
      let a <- parseTermArg fuel
      let b <- parseTermArg fuel
      let t <- parseTarget fuel
      pure (some (AmlTerm.ShiftRight a b t))
    else if opcode = 0x7B then do
      let a <- parseTermArg fuel
      let b <- parseTermArg fuel
      let t <- parseTarget fuel
      pure (some (AmlTerm.And a b t))
    else if opcode = 0x7C then do
      let a <- parseTermArg fuel
      let b <- parseTermArg fuel
      let t <- parseTarget fuel
      pure (some (AmlTerm.Nand a b t))
    else if opcode = 0x7D then do
      let a <- parseTermArg fuel
      let b <- parseTermArg fuel
      let t <- parseTarget fuel
      pure (some (AmlTerm.Or a b t))
    else if opcode = 0x7E then do
      let a <- parseTermArg fuel
      let b <- parseTermArg fuel
      let t <- parseTarget fuel
      pure (some (AmlTerm.Nor a b t))
    else if opcode = 0x7F then do
      let a <- parseTermArg fuel
      let b <- parseTermArg fuel
      let t <- parseTarget fuel
      pure (some (AmlTerm.Xor a b t))
    else if opcode = 0x80 then do
      let a <- parseTermArg fuel
      let t <- parseTarget fuel
      pure (some (AmlTerm.Not a t))
    else if opcode = 0x81 then do
      let a <- parseTermArg fuel
      let t <- parseTarget fuel
      pure (some (AmlTerm.FindSetLeftBit a t))
    else if opcode = 0x82 then do
      let a <- parseTermArg fuel
      let t <- parseTarget fuel
      pure (some (AmlTerm.FindSetRightBit a t))
    else if opcode = 0x83 then do
      let a <- parseTermArg fuel
      pure (some (AmlTerm.DerefOf a))
    else if opcode = 0x84 then do
      let a <- parseTermArg fuel
      let b <- parseTermArg fuel
      let t <- parseTarget fuel
      pure (some (AmlTerm.ConcatRes a b t))
    else if opcode = 0x85 then do
      let a <- parseTermArg fuel
      let b <- parseTermArg fuel
      let t <- parseTarget fuel
      pure (some (AmlTerm.Mod a b t))
    else if opcode = 0x86 then do
      let t <- parseTarget fuel
      let a <- parseTermArg fuel
      pure (some (AmlTerm.Notify t a))
    else if opcode = 0x87 then do
      let t <- parseTarget fuel
      pure (some (AmlTerm.SizeOf t))
    else if opcode = 0x88 then do
      let a <- parseTermArg fuel
      let b <- parseTermArg fuel
      let t <- parseTarget fuel
      pure (some (AmlTerm.Index a b t))
    else if opcode = 0x8A then do
      let a <- parseTermArg fuel
      let b <- parseTermArg fuel
      let n <- parseName fuel
      pure (some (AmlTerm.CreateDWordField a b n))
    else if opcode = 0x8B then do
      let a <- parseTermArg fuel
      let b <- parseTermArg fuel
      let n <- parseName fuel
      pure (some (AmlTerm.CreateWordField a b n))
    else if opcode = 0x8C then do
      let a <- parseTermArg fuel
      let b <- parseTermArg fuel
      let n <- parseName fuel
      pure (some (AmlTerm.CreateByteField a b n))
    else if opcode = 0x8D then do
      let a <- parseTermArg fuel
      let b <- parseTermArg fuel
      let n <- parseName fuel
      pure (some (AmlTerm.CreateBitField a b n))
    else if opcode = 0x8F then do
      let a <- parseTermArg fuel
      let b <- parseTermArg fuel
      let n <- parseName fuel
      pure (some (AmlTerm.CreateQWordField a b n))
    else if opcode = 0x90 then do
      let a <- parseTermArg fuel
      let b <- parseTermArg fuel
      pure (some (AmlTerm.LAnd a b))
    else if opcode = 0x91 then do
      let a <- parseTermArg fuel
      let b <- parseTermArg fuel
      pure (some (AmlTerm.LOr a b))
    else if opcode = 0x92 then do
      let next_byte <- peekNextByteM
      if next_byte = 0x93 then do
        forwardM 1
        let a <- parseTermArg fuel
        let b <- parseTermArg fuel
        pure (some (AmlTerm.LNotEqual a b))
      else if next_byte = 0x94 then do
        forwardM 1
        let a <- parseTermArg fuel
        let b <- parseTermArg fuel
        pure (some (AmlTerm.LLessEqual a b))
      else if next_byte = 0x95 then do
        forwardM 1
        let a <- parseTermArg fuel
        let b <- parseTermArg fuel
        pure (some (AmlTerm.LGreaterEqual a b))
      else do
        let a <- parseTermArg fuel
        pure (some (AmlTerm.LNot a))
    else if opcode = 0x93 then do
      let a <- parseTermArg fuel
      let b <- parseTermArg fuel
      pure (some (AmlTerm.LEqual a b))
    else if opcode = 0x94 then do
      let a <- parseTermArg fuel
      let b <- parseTermArg fuel
      pure (some (AmlTerm.LGreater a b))
    else if opcode = 0x95 then do
      let a <- parseTermArg fuel
      let b <- parseTermArg fuel
      pure (some (AmlTerm.LLess a b))
    else if opcode = 0x96 then do
      let a <- parseTermArg fuel
      let t <- parseTarget fuel
      pure (some (AmlTerm.ToBuffer a t))
    else if opcode = 0x97 then do
      let a <- parseTermArg fuel
      let t <- parseTarget fuel
      pure (some (AmlTerm.ToDecimalString a t))
    else if opcode = 0x98 then do
      let a <- parseTermArg fuel
      let t <- parseTarget fuel
      pure (some (AmlTerm.ToHexString a t))
    else if opcode = 0x99 then do
      let a <- parseTermArg fuel
      let t <- parseTarget fuel
      pure (some (AmlTerm.ToInteger a t))
    else if opcode = 0xA0 then do
      let pb <- predicateBlockParse fuel
      pure (some (AmlTerm.If pb))
    else if opcode = 0xA1 then do
      let inner <- getInnerParser
      let r <- runOn inner (do
        let tl <- parseTermList fuel
        checkEmpty
        pure tl)
      pure (some (AmlTerm.Else r.1))
    else if opcode = 0xA2 then do
      let pb <- predicateBlockParse fuel
      pure (some (AmlTerm.While pb))
    else if opcode = 0xA3 then pure (some AmlTerm.Noop)
    else if opcode = 0xA4 then do
      let a <- parseTermArg fuel
      pure (some (AmlTerm.Return a))
    else if opcode = 0xA5 then pure (some AmlTerm.Break)
    else parseMethodInvocation fuel
termination_by structural fuel opcode => fuel


/-- The default arm of `try_parse_term`: step back over the consumed
opcode, try a name, resolve its arity through `State::find_method` or,
failing that, the speculative `predict_possible_args` probe, and consume
that many method-call arguments. -/
def parseMethodInvocation : Nat -> M (Option AmlTerm)
  | 0 => nofuelM
  | fuel + 1 => fun p s =>
    match backwardM 1 p s with
    | (AmlOut.ok _, p1, s1) =>
      match tryParseName fuel p1 s1 with
      | (AmlOut.ok (some name), p2, s2) =>
        (match State.find_method p2.state s2 name with
         | some k =>
           match parseNArgs fuel k p2 s2 with
           | (AmlOut.ok args, p3, s3) =>
             (AmlOut.ok (some (AmlTerm.MethodCall name args)), p3, s3)
           | (AmlOut.err e, p3, s3) => (AmlOut.err e, p3, s3)
           | (AmlOut.fatal, p3, s3) => (AmlOut.fatal, p3, s3)
           | (AmlOut.nofuel, p3, s3) => (AmlOut.nofuel, p3, s3)
         | none =>
           match predictPossibleArgs fuel p2 s2 with
           | (AmlOut.ok k, p3, s3) =>
             match parseNArgs fuel k p3 s3 with
             | (AmlOut.ok args, p4, s4) =>
               (AmlOut.ok (some (AmlTerm.MethodCall name args)), p4, s4)
             | (AmlOut.err e, p4, s4) => (AmlOut.err e, p4, s4)
             | (AmlOut.fatal, p4, s4) => (AmlOut.fatal, p4, s4)
             | (AmlOut.nofuel, p4, s4) => (AmlOut.nofuel, p4, s4)
           | (AmlOut.err e, p3, s3) => (AmlOut.err e, p3, s3)
           | (AmlOut.fatal, p3, s3) => (AmlOut.fatal, p3, s3)
           | (AmlOut.nofuel, p3, s3) => (AmlOut.nofuel, p3, s3))
      | (AmlOut.ok none, p2, s2) => (AmlOut.ok none, p2, s2)
      | (AmlOut.err e, p2, s2) => (AmlOut.err e, p2, s2)
      | (AmlOut.fatal, p2, s2) => (AmlOut.fatal, p2, s2)
      | (AmlOut.nofuel, p2, s2) => (AmlOut.nofuel, p2, s2)
    | (AmlOut.err e, p1, s1) => (AmlOut.err e, p1, s1)
    | (AmlOut.fatal, p1, s1) => (AmlOut.fatal, p1, s1)
    | (AmlOut.nofuel, p1, s1) => (AmlOut.nofuel, p1, s1)
termination_by structural fuel => fuel


/-- `Parser::predict_possible_args`: probe up to 7 argument parses on a
clone of the parser (the clone still shares the method/name cells, so
store effects persist), counting until a break shape or an error. -/
def predictPossibleArgs : Nat -> M Nat
  | 0 => nofuelM
  | fuel + 1 => fun p s =>
    match predictLoop fuel 7 0 p s with
    | (AmlOut.ok n, _, s1) => (AmlOut.ok n, p, s1)
    | (AmlOut.err e, _, s1) => (AmlOut.err e, p, s1)
    | (AmlOut.fatal, _, s1) => (AmlOut.fatal, p, s1)
    | (AmlOut.nofuel, _, s1) => (AmlOut.nofuel, p, s1)
termination_by structural fuel => fuel


/-- The probing loop of `predict_possible_args`: at most 7 iterations,
stopping (keeping the count so far) on an error or a break shape. -/
def predictLoop : Nat -> Nat -> Nat -> M Nat
  | 0, _, _ => nofuelM
  | _ + 1, 0, n_args => pure n_args
  | fuel + 1, iters + 1, n_args => fun p s =>
    match parseTermArgForMethodCall fuel p s with
    | (AmlOut.ok a, p1, s1) =>
      if breakArg a then (AmlOut.ok n_args, p1, s1)
      else predictLoop fuel iters (n_args + 1) p1 s1
    | (AmlOut.err _, p1, s1) => (AmlOut.ok n_args, p1, s1)
    | (AmlOut.fatal, p1, s1) => (AmlOut.fatal, p1, s1)
    | (AmlOut.nofuel, p1, s1) => (AmlOut.nofuel, p1, s1)
termination_by structural fuel iters n_args => fuel


/-- `Parser::parse_term_arg`. -/
def parseTermArg : Nat -> M TermArg
  | 0 => nofuelM
  | fuel + 1 => parseTermArgGeneral fuel false
termination_by structural fuel => fuel


/-- `Parser::parse_term_arg_for_method_call`. -/
def parseTermArgForMethodCall : Nat -> M TermArg
  | 0 => nofuelM
  | fuel + 1 => parseTermArgGeneral fuel true
termination_by structural fuel => fuel


/-- `Parser::parse_term_arg_general`. -/
def parseTermArgGeneral : Nat -> Bool -> M TermArg
  | 0, _ => nofuelM
  | fuel + 1, for_method_call => do
    let lead_byte <- getNextByteM
    if lead_byte = 0x0 then pure (TermArg.DataObject DataObject.ConstZero)
    else if lead_byte = 0x1 then pure (TermArg.DataObject DataObject.ConstOne)
    else if lead_byte = 0xA then do
      let d <- getNextByteM
      pure (TermArg.DataObject (DataObject.ByteConst d))
    else if lead_byte = 0xB then do
      let b0 <- getNextByteM
      let b1 <- getNextByteM
      pure (TermArg.DataObject (DataObject.WordConst (b0 ||| (b1 <<< 8))))
    else if lead_byte = 0xC then do
      let b0 <- getNextByteM
      let b1 <- getNextByteM
      let b2 <- getNextByteM
      let b3 <- getNextByteM
      pure (TermArg.DataObject
        (DataObject.DWordConst (b0 ||| (b1 <<< 8) ||| (b2 <<< 16) ||| (b3 <<< 24))))
    else if lead_byte = 0xE then do
      let b0 <- getNextByteM
      let b1 <- getNextByteM
      let b2 <- getNextByteM
      let b3 <- getNextByteM
      let b4 <- getNextByteM
      let b5 <- getNextByteM
      let b6 <- getNextByteM
      let b7 <- getNextByteM
      pure (TermArg.DataObject
        (DataObject.QWordConst (b0 ||| (b1 <<< 8) ||| (b2 <<< 16) ||| (b3 <<< 24) |||
          (b4 <<< 32) ||| (b5 <<< 40) ||| (b6 <<< 48) ||| (b7 <<< 56))))
    else if lead_byte = 0xFF then pure (TermArg.DataObject DataObject.ConstOnes)
    else
      match tryParseLocal lead_byte with
      | some l => pure (TermArg.Local l)
      | none =>
        match tryParseArg lead_byte with
        | some a => pure (TermArg.Arg a)
        | none => do
          backwardM 1
          match <- tryParseName fuel with
          | some name => do
            let found <- findMethodM name
            let option_nargs <-
              match found with
              | some n => pure (some n)
              | none => do
                let kn <- findNameM name
                if kn then pure none
                else if for_method_call then do
                  let possible <- predictPossibleArgs fuel
                  if possible = 0 then pure none else pure (some possible)
                else pure (none : Option Nat)
            match option_nargs with
            | some n_args => do
              let args <- parseNArgs fuel n_args
              pure (TermArg.MethodCall name args)
            | none => pure (TermArg.Name name)
          | none => do
            forwardM 1
            match <- tryParseTerm fuel lead_byte with
            | some term => pure (TermArg.Expression term)
            | none => fatalM
termination_by structural fuel fmc => fuel


/-- The `for _ in 0..n_args` argument loop shared by the method-call
paths. -/
def parseNArgs : Nat -> Nat -> M (List TermArg)
  | _, 0 => fun p s => (AmlOut.ok [], p, s)
  | 0, _ + 1 => nofuelM
  | fuel + 1, n + 1 => fun p s =>
    match parseTermArgForMethodCall fuel p s with
    | (AmlOut.ok a, p1, s1) =>
      match parseNArgs fuel n p1 s1 with
      | (AmlOut.ok rest, p2, s2) => (AmlOut.ok (a :: rest), p2, s2)
      | (AmlOut.err e, p2, s2) => (AmlOut.err e, p2, s2)
      | (AmlOut.fatal, p2, s2) => (AmlOut.fatal, p2, s2)
      | (AmlOut.nofuel, p2, s2) => (AmlOut.nofuel, p2, s2)
    | (AmlOut.err e, p1, s1) => (AmlOut.err e, p1, s1)
    | (AmlOut.fatal, p1, s1) => (AmlOut.fatal, p1, s1)
    | (AmlOut.nofuel, p1, s1) => (AmlOut.nofuel, p1, s1)
termination_by structural fuel n => fuel


/-- `Parser::try_parse_name`. -/
def tryParseName : Nat -> M (Option String)
  | 0 => nofuelM
  | fuel + 1 => do
    let c <- peekNextByteM
    if c = 0 then do
      forwardM 1
      pure (some "")
    else if (0x41 <= c && c <= 0x5A) || c = 0x5F then do
      let s <- parseNamePath
      pure (some s)
    else if c = 0x5C then do
      forwardM 1
      let name <- parseName fuel
      pure (some (String.push "" (Char.ofNat 0x5C) ++ name))
    else if c = 0x5E then do
      let carets <- caretLoop fuel ""
      let name <- parseName fuel
      pure (some (carets ++ name))
    else if c = 0x2E then do
      forwardM 1
      let seg1 <- parseNamePath
      let seg2 <- parseNamePath
      pure (some (seg1 ++ "." ++ seg2))
    else if c = 0x2F then do
      forwardM 1
      let count <- getNextByteM
      let s <- multiNamePathLoop count ""
      pure (some s)
    else pure none
termination_by structural fuel => fuel


/-- `Parser::parse_name`; a `None` from `try_parse_name` is the source's
`todo!` panic. -/
def parseName : Nat -> M String
  | 0 => nofuelM
  | fuel + 1 => do
    let _ <- peekNextByteM
    match <- tryParseName fuel with
    | some name => pure name
    | none => fatalM
termination_by structural fuel => fuel


/-- `Parser::parse_target`; a failed `assert!(next_byte == 0x31)`, the
`0x71` typeref arm and the trailing `todo!` are panics. -/
def parseTarget : Nat -> M Target
  | 0 => nofuelM
  | fuel + 1 => do
    let lead_byte <- peekNextByteM
    if lead_byte = 0x0 then do
      forwardM 1
      pure Target.None
    else if lead_byte = 0x5b then do
      forwardM 1
      let next_byte <- getNextByteM
      if next_byte = 0x31 then pure Target.Debug else fatalM
    else if lead_byte = 0x71 then fatalM
    else
      match tryParseLocal lead_byte with
      | some l => do
        forwardM 1
        pure (Target.Local l)
      | none =>
        match tryParseArg lead_byte with
        | some a => do
          forwardM 1
          pure (Target.Arg a)
        | none => do
          match <- tryParseName fuel with
          | some name => do
            insertNameM name
            pure (Target.Name name)
          | none => do
            forwardM 1
            match <- tryParseTerm fuel lead_byte with
            | some (AmlTerm.Index a b t) => pure (Target.Index a b t)
            | some (AmlTerm.RefOf t) => pure (Target.RefOf t)
            | some (AmlTerm.DerefOf a) => pure (Target.DerefOf a)
            | _ => fatalM
termination_by structural fuel => fuel


/-- `Parser::parse_term_list`: terms until the cursor reaches the end of
the slice, then the (always-passing) remaining-bytes check. -/
def parseTermList : Nat -> M (List AmlTerm)
  | 0 => nofuelM
  | fuel + 1 => do
    let p <- getP
    if p.pos < p.code.length then do
      let t <- parseTerm fuel
      let rest <- parseTermList fuel
      pure (t :: rest)
    else if p.remaining_bytes != 0 then
      throwE (AmlParseError.RemainingBytes p.remaining_bytes)
    else pure []
termination_by structural fuel => fuel


/-- The `while inner.pos < inner.code.len()` element loop of the
`Package`/`VarPackage` arms. -/
def packageElementsLoop : Nat -> M (List TermArg)
  | 0 => nofuelM
  | fuel + 1 => do
    let p <- getP
    if p.pos < p.code.length then do
      let a <- parseTermArg fuel
      let rest <- packageElementsLoop fuel
      pure (a :: rest)
    else pure []
termination_by structural fuel => fuel


/-- `Parser::parse_fields_list_and_flags`. -/
def parseFieldsListAndFlags : Nat -> M (Nat × List FieldElement)
  | 0 => nofuelM
  | fuel + 1 => do
    let flags <- getNextByteM
    let field_list <- fieldsLoop fuel
    checkEmpty
    pure (flags, field_list)
termination_by structural fuel => fuel


/-- The field-element loop of `parse_fields_list_and_flags`: lead `0` is a
reserved field, leads `1`-`3` are `todo!` panics, anything else is a named
field whose name must span exactly 4 bytes (`assert!`); a negative package
length is the source's underflow panic. -/
def fieldsLoop : Nat -> M (List FieldElement)
  | 0 => nofuelM
  | fuel + 1 => do
    let p <- getP
    if p.pos < p.code.length then do
      let lead <- peekNextByteM
      let field <-
        if lead = 0 then do
          forwardM 1
          let pkg <- getPkgLengthM
          if pkg < 0 then fatalM
          else pure (FieldElement.ReservedField (pkg.toNat + 1))
        else if lead = 1 || lead = 2 || lead = 3 then fatalM
        else do
          let name <- parseName fuel
          insertNameM name
          let p2 <- getP
          if p2.pos - p.pos = 4 then do
            let pkg <- getPkgLengthM
            if pkg < 0 then fatalM
            else pure (FieldElement.NamedField name (pkg.toNat + 1))
          else fatalM
      let rest <- fieldsLoop fuel
      pure (field :: rest)
    else pure []
termination_by structural fuel => fuel


/-- `ScopeObj::parse` (also the body of the `Device` arm): parse inside an
inner parser, then merge its state into ours with
`State::move_to_parent`. -/
def scopeObjParse : Nat -> M ScopeObj
  | 0 => nofuelM
  | fuel + 1 => do
    let inner <- getInnerParser
    let r <- runOn inner (do
      let name <- parseName fuel
      setScopeM name
      let tl <- parseTermList fuel
      checkEmpty
      pure (name, tl))
    moveToParentM r.2.state
    pure (ScopeObj.mk r.1.1 r.1.2)
termination_by structural fuel => fuel


/-- `MethodObj::parse`: unlike `ScopeObj::parse`, the inner state is not
merged back. -/
def methodObjParse : Nat -> M MethodObj
  | 0 => nofuelM
  | fuel + 1 => do
    let inner <- getInnerParser
    let r <- runOn inner (do
      let name <- parseName fuel
      let flags <- getNextByteM
      let tl <- parseTermList fuel
      checkEmpty
      pure (name, flags, tl))
    pure (MethodObj.mk r.1.1 r.1.2.1 r.1.2.2)
termination_by structural fuel => fuel


/-- `RegionObj::parse`: parsed directly on the outer parser, no inner
package. -/
def regionObjParse : Nat -> M RegionObj
  | 0 => nofuelM
  | fuel + 1 => do
    let name <- parseName fuel
    let region_space <- getNextByteM
    let region_offset <- parseTermArg fuel
    let region_length <- parseTermArg fuel
    pure (RegionObj.mk name region_space region_offset region_length)
termination_by structural fuel => fuel


/-- `FieldDef::parse`. -/
def fieldDefParse : Nat -> M FieldDef
  | 0 => nofuelM
  | fuel + 1 => do
    let inner <- getInnerParser
    let r <- runOn inner (do
      let name <- parseName fuel
      let fl <- parseFieldsListAndFlags fuel
      pure (name, fl))
    pure (FieldDef.mk r.1.1 r.1.2.1 r.1.2.2)
termination_by structural fuel => fuel


/-- `IndexFieldDef::parse`. -/
def indexFieldDefParse : Nat -> M IndexFieldDef
  | 0 => nofuelM
  | fuel + 1 => do
    let inner <- getInnerParser
    let r <- runOn inner (do
      let name <- parseName fuel
      let index_name <- parseName fuel
      let fl <- parseFieldsListAndFlags fuel
      pure (name, index_name, fl))
    pure (IndexFieldDef.mk r.1.1 r.1.2.1 r.1.2.2.1 r.1.2.2.2)
termination_by structural fuel => fuel


/-- `PredicateBlock::parse`. -/
def predicateBlockParse : Nat -> M PredicateBlock
  | 0 => nofuelM
  | fuel + 1 => do
    let inner <- getInnerParser
    let r <- runOn inner (do
      let pred <- parseTermArg fuel
      let tl <- parseTermList fuel
      checkEmpty
      pure (pred, tl))
    pure (PredicateBlock.mk r.1.1 r.1.2)
termination_by structural fuel => fuel


/-- `ProcessorDeprecated::parse`. -/
def processorParse : Nat -> M ProcessorDeprecated
  | 0 => nofuelM
  | fuel + 1 => do
    let inner <- getInnerParser
    let r <- runOn inner (do
      let name <- parseName fuel
      let unk1 <- getNextByteM
      let b0 <- getNextByteM
      let b1 <- getNextByteM
      let b2 <- getNextByteM
      let b3 <- getNextByteM
      let unk3 <- getNextByteM
      let tl <- parseTermList fuel
      checkEmpty
      pure (name, unk1, b0 ||| (b1 <<< 8) ||| (b2 <<< 16) ||| (b3 <<< 24), unk3, tl))
    pure (ProcessorDeprecated.mk r.1.1 r.1.2.1 r.1.2.2.1 r.1.2.2.2.1 r.1.2.2.2.2)
termination_by structural fuel => fuel


/-- `PowerResource::parse`. -/
def powerResourceParse : Nat -> M PowerResource
  | 0 => nofuelM
  | fuel + 1 => do
    let inner <- getInnerParser
    let r <- runOn inner (do
      let name <- parseName fuel
      let system_level <- getNextByteM
      let b0 <- getNextByteM
      let b1 <- getNextByteM
      let tl <- parseTermList fuel
      checkEmpty
      pure (name, system_level, b0 ||| (b1 <<< 8), tl))
    pure (PowerResource.mk r.1.1 r.1.2.1 r.1.2.2.1 r.1.2.2.2)
termination_by structural fuel => fuel

end

/-- `Parser::parse_root`. -/
def parse_root (fuel : Nat) : M AmlCode := do
  let tl <- parseTermList fuel
  pure (AmlCode.mk tl)

/-- `parse_aml`: run `parse_root` from position 0 with a default state
whose method map and name set are the fresh cells `0` of the store. -/
def parse_aml (code : List Nat) (fuel : Nat) : AmlOut AmlCode × Parser × Store :=
  parse_root fuel { code := code, pos := 0, state := initState }
    { methodCells := [[]], nameCells := [[]] }

/-- A one-byte table whose package-length lead byte is `0x00`: the decoded
payload length underflows to `-1`. -/
def pkgZeroParser : Parser := { code := [0x00], pos := 0, state := initState }

/-- A two-byte package-length encoding: lead `0x45` (`follow = 1`, low
nibble `5`) followed by `0x00`, encoding length `5` and payload `3`. -/
def pkgSpecParser : Parser := { code := [0x45, 0x00], pos := 0, state := initState }

/-- `Method(FOO_, 2) { }` followed by the invocation `FOO_(Zero, One)`. -/
def methodArityDemo : List Nat :=
  [0x14, 0x06, 0x46, 0x4F, 0x4F, 0x5F, 0x02, 0x46, 0x4F, 0x4F, 0x5F, 0x00, 0x01]

/-- The invocation part of `methodArityDemo` alone (`FOO_` then two
constant arguments), with the opcode byte already consumed. -/
def callDemoCode : List Nat := [0x46, 0x4F, 0x4F, 0x5F, 0x00, 0x01]

/-- A store whose method cell `0` already records `FOO_` with 2
arguments. -/
def callDemoStore : Store := { methodCells := [[("FOO_", 2)]], nameCells := [[]] }

/-- A parser over `callDemoCode` that has just consumed the first byte as
an opcode. -/
def callDemoParser : Parser := { code := callDemoCode, pos := 1, state := initState }

end Aml

theorem cliInv_lock {init s s' : MutexSys} {i : Nat} (hinv : CliInv init s)
    (h : s.lock i = some s') : CliInv init s' := by
  unfold MutexSys.lock at h
  unfold rawLockAcquire at h
  rcases hinv with ⟨h0, hie⟩ | ⟨hpos, hie, hold⟩
  · dsimp only at h
    split at h
    · exact absurd h (by simp)
    · split at h
      · exact absurd h (by simp)
      · rename_i m hm
        split at hm
        · exact absurd hm (by simp)
        · cases hm
          cases h
          right
          refine ⟨?_, ?_, ?_⟩ <;> simp [CpuState.push_cli, h0, hie]
  · dsimp only at h
    split at h
    · exact absurd h (by simp)
    · split at h
      · exact absurd h (by simp)
      · rename_i m hm
        split at hm
        · exact absurd hm (by simp)
        · cases hm
          cases h
          right
          have hne : s.cpu.n_cli ≠ 0 := Nat.pos_iff_ne_zero.mp hpos
          refine ⟨?_, ?_, ?_⟩ <;> simp [CpuState.push_cli, hne, hie, hold]

theorem cliInv_unlock {init s s' : MutexSys} {i : Nat} (hinv : CliInv init s)
    (h : s.unlock i = some s') : CliInv init s' := by
  unfold MutexSys.unlock at h
  cases hpop : s.cpu.pop_cli with
  | none => rw [hpop] at h; exact absurd h (by simp)
  | some cpu =>
    rw [hpop] at h
    dsimp only at h
    injection h with h2
    subst h2
    unfold CpuState.pop_cli at hpop
    by_cases hi : s.cpu.intEnabled
    · rw [if_pos hi] at hpop
      exact absurd hpop (by simp)
    · rw [if_neg hi] at hpop
      rcases hinv with ⟨h0, hie⟩ | ⟨hpos, hie, hold⟩
      · rw [if_pos h0] at hpop
        exact absurd hpop (by simp)
      · have hne : s.cpu.n_cli ≠ 0 := by omega
        rw [if_neg hne] at hpop
        split at hpop
        · rename_i hcond
          injection hpop with hcpu
          subst hcpu
          left
          refine ⟨hcond.1, ?_⟩
          have hob : s.cpu.old_interrupt_enable = true := hcond.2
          show true = init.cpu.intEnabled
          rw [← hold, hob]
        · rename_i hcond
          injection hpop with hcpu
          subst hcpu
          rcases Nat.eq_zero_or_pos (s.cpu.n_cli - 1) with hz | hp
          · left
            refine ⟨hz, ?_⟩
            have hob : s.cpu.old_interrupt_enable = false := by
              cases hb : s.cpu.old_interrupt_enable
              · rfl
              · exact absurd ⟨hz, hb⟩ hcond
            show s.cpu.intEnabled = init.cpu.intEnabled
            rw [hie, ← hold, hob]
          · right
            exact ⟨hp, hie, hold⟩

theorem cliInv_exec {init s s' : MutexSys} {ops : List MutexOp} (hinv : CliInv init s)
    (h : s.exec ops = some s') : CliInv init s' := by
  induction ops generalizing s with
  | nil => cases h; exact hinv
  | cons op ops ih =>
    cases op with
    | lock i =>
      rcases Option.bind_eq_some.mp h with ⟨t, ht, hrest⟩
      exact ih (cliInv_lock hinv ht) hrest
    | unlock i =>
      rcases Option.bind_eq_some.mp h with ⟨t, ht, hrest⟩
      exact ih (cliInv_unlock hinv ht) hrest

/-- **C6.** On one CPU, for every sequence of `Mutex::lock` acquisitions
and guard drops that executes without panicking, started with `n_cli = 0`:
whenever some lock is held (`n_cli > 0`) interrupts are disabled and the
snapshot `old_interrupt_enable` holds the interrupt flag from before the
first acquisition; whenever all guards have been dropped (`n_cli = 0`) the
interrupt flag equals its initial value — so interrupts are re-enabled
only when the last drop brings `n_cli` back to 0 and the snapshot recorded
that interrupts were previously enabled, and nested acquisitions never
re-enable them early. -/
theorem mutex_nested_cli_discipline (init s' : MutexSys) (ops : List MutexOp)
    (hstart : init.cpu.n_cli = 0) (h : init.exec ops = some s') :
    (0 < s'.cpu.n_cli →
      s'.cpu.intEnabled = false ∧
        s'.cpu.old_interrupt_enable = init.cpu.intEnabled) ∧
    (s'.cpu.n_cli = 0 → s'.cpu.intEnabled = init.cpu.intEnabled) := by
  have hinv : CliInv init s' := cliInv_exec (Or.inl ⟨hstart, rfl⟩) h
  constructor
  · intro hpos
    rcases hinv with ⟨h0, _⟩ | ⟨_, hie, hold⟩
    · omega
    · exact ⟨hie, hold⟩
  · intro h0
    rcases hinv with ⟨_, hie⟩ | ⟨hpos, _, _⟩
    · exact hie
    · omega

theorem mutex_nested_cli_discipline_witness :
    mutexSysInit.cpu.n_cli = 0 ∧
      ∃ s', mutexSysInit.exec
          [MutexOp.lock 0, MutexOp.lock 1, MutexOp.unlock 1, MutexOp.unlock 0] = some s' ∧
        ((0 < s'.cpu.n_cli →
            s'.cpu.intEnabled = false ∧
              s'.cpu.old_interrupt_enable = mutexSysInit.cpu.intEnabled) ∧
          (s'.cpu.n_cli = 0 → s'.cpu.intEnabled = mutexSysInit.cpu.intEnabled)) := by
  have h : mutexSysInit.exec
      [MutexOp.lock 0, MutexOp.lock 1, MutexOp.unlock 1, MutexOp.unlock 0] =
      some
        { cpu := { id := 0, old_interrupt_enable := true, n_cli := 0, intEnabled := true }
          mutexes := fun j =>
            if j = 0 then { locked := false, owner_cpu := -1 }
            else if j = 1 then { locked := false, owner_cpu := -1 }
            else if j = 1 then { locked := true, owner_cpu := 0 }
            else if j = 0 then { locked := true, owner_cpu := 0 }
            else MutexState.new } := rfl
  exact ⟨rfl, _, h, mutex_nested_cli_discipline mutexSysInit _ _ rfl h⟩

/-! ## FAT theorems -/

/-- **C1.** On the concrete FAT16 volume `fatFsA` (chain `3 → 5 → EOC`,
`sectors_per_cluster = 2`, `data_start_sector = 2`), stepping the
cluster-chain directory iterator past the cluster boundary reads the FAT
entry of cluster 3, obtains `Next 5`, and continues at sector
`5 * sectors_per_cluster = 10` — not at
`first_sector_of_cluster 5 = data_start_sector + (5 - 2) * 2 = 8` as the
claim states: the code omits the `data_start_sector` offset after a FAT
`Next` jump. -/
theorem next_sector_cluster_jump_divergence :
    fatFsA.read_fat_entry 3 = some (FatEntry.Next 5) ∧
      ∃ it', DirectoryIterator.next_sector fatFsA dirIterA =
          some (Except.ok (true, it')) ∧
        it'.current_sector_index = 10 ∧
        fatFsA.first_sector_of_cluster 5 = 8 ∧
        it'.current_sector_index ≠ fatFsA.first_sector_of_cluster 5 := by
  exact ⟨rfl, _, rfl, rfl, rfl, by decide⟩

/-- **C7 (counterexample).** A boot sector with a valid `0xAA55`
signature but `sectors_per_cluster = 0` makes `FatBootSector::new` panic
on the division `size_in_sectors / sectors_per_cluster` (modelled as
`none`) instead of classifying the volume. -/
theorem fat_boot_new_spc_zero_panics :
    fatRawZeroSpc.boot_signature_2 = 0xAA55 ∧
      FatBootSector.new fatRawZeroSpc 2880 = none := ⟨rfl, rfl⟩

/-- **C7 (amended).** `FatBootSector::new` returns
`Err(InvalidBootSector)` exactly when the trailing signature is not
`0xAA55`; when the signature is valid and `sectors_per_cluster ≠ 0` (the
`u32` division panics on zero) it classifies the volume as `Fat32` when
`fat_size_16 == 0`, else per
`count_of_clusters = size_in_sectors / sectors_per_cluster` as `Fat12`
when at most 4084, `Fat16` when at most 65524, `Fat32` otherwise. -/
theorem fat_boot_sector_new_classification (raw : FatBootSectorRaw) (size_in_sectors : Nat) :
    (FatBootSector.new raw size_in_sectors = some (Except.error FatError.InvalidBootSector) ↔
        raw.boot_signature_2 ≠ 0xAA55) ∧
      (raw.boot_signature_2 = 0xAA55 → raw.sectors_per_cluster ≠ 0 →
        FatBootSector.new raw size_in_sectors =
          some (Except.ok
            { ty :=
                if raw.fat_size_16 = 0 then FatType.Fat32
                else if size_in_sectors / raw.sectors_per_cluster ≤ 4084 then FatType.Fat12
                else if size_in_sectors / raw.sectors_per_cluster ≤ 65524 then FatType.Fat16
                else FatType.Fat32
              boot_sector := raw })) := by
  by_cases hsig : raw.boot_signature_2 = 0xAA55
  · by_cases hspc : raw.sectors_per_cluster = 0
    · constructor
      · simp [FatBootSector.new, hsig, hspc]
      · intro _ h
        exact absurd hspc h
    · constructor
      · simp [FatBootSector.new, hsig, hspc]
      · intro _ _
        simp [FatBootSector.new, hsig, hspc]
  · constructor
    · simp [FatBootSector.new, hsig]
    · intro h
      exact absurd h hsig

/-- Witness for C7: the `fatFsA` boot sector fields (signature `0xAA55`,
`sectors_per_cluster = 2`, `fat_size_16 = 1`, 9000 sectors, so 4500
clusters) classify as `Fat16`. -/
theorem fat_boot_sector_new_classification_witness :
    fatFsA.boot_sector.boot_sector.boot_signature_2 = 0xAA55 ∧
      fatFsA.boot_sector.boot_sector.sectors_per_cluster ≠ 0 ∧
      FatBootSector.new fatFsA.boot_sector.boot_sector 9000 =
        some (Except.ok
          { ty := FatType.Fat16, boot_sector := fatFsA.boot_sector.boot_sector }) := by
  refine ⟨rfl, by decide, ?_⟩
  have h := (fat_boot_sector_new_classification fatFsA.boot_sector.boot_sector 9000).2
    rfl (by decide)
  rw [h]
  rfl

/-- Bits `[k, …)` of `a * 2^k` and bits `[0, k)` of `b` do not overlap, so
their bitwise or is their sum. -/
theorem lor_eq_add_pow {k b : Nat} (a : Nat) (h : b < 2 ^ k) :
    a * 2 ^ k ||| b = a * 2 ^ k + b := by
  rw [Nat.mul_comm a (2 ^ k), ← Nat.mul_add_lt_is_or h a]

/-- **C8.** `read_fat_entry` for cluster index `n` reads the cached FAT at
byte offset `n*3/2` (FAT12: byte1 plus the low nibble of byte2 shifted
left 8 for even `n`, byte1's high nibble plus byte2 shifted left 4 for odd
`n`), at `n*2` as a little-endian `u16` (FAT16), and at `n*4` as a
little-endian `u32` masked to 28 bits (FAT32), then classifies the value
through `FatEntry::from_u32`.  The hypotheses say the FAT cache holds
bytes and the accessed offsets are in bounds (the source `assert!`s /
raw-reads there). -/
theorem read_fat_entry_decode (fs : FatFilesystem) (n : Nat)
    (hbytes : ∀ b ∈ fs.fat, b < 256)
    (hoff : (match fs.boot_sector.ty with
        | FatType.Fat12 => n * 3 / 2 + 1
        | FatType.Fat16 => n * 2 + 1
        | FatType.Fat32 => n * 4 + 3) < fs.fat.length) :
    fs.read_fat_entry n =
      some (FatEntry.from_u32 fs.boot_sector.ty
        (fatSpecValue fs.boot_sector.ty fs.fat n)) := by
  unfold FatFilesystem.read_fat_entry fatSpecValue
  cases hty : fs.boot_sector.ty with
  | Fat12 =>
    rw [hty] at hoff
    simp only at hoff
    have h1 : n * 3 / 2 < fs.fat.length := by omega
    have h2 : n * 3 / 2 + 1 < fs.fat.length := hoff
    rw [if_pos h1, List.get?_eq_get h1, List.get?_eq_get h2]
    have hb1 : fs.fat.get ⟨n * 3 / 2, h1⟩ < 256 := hbytes _ (List.get_mem _ _ _)
    have hb2 : fs.fat.get ⟨n * 3 / 2 + 1, h2⟩ < 256 := hbytes _ (List.get_mem _ _ _)
    rw [List.getD_eq_get?, List.getD_eq_get?, List.get?_eq_get h1, List.get?_eq_get h2,
      Option.getD_some, Option.getD_some]
    dsimp only [Option.bind, Option.map]
    refine congrArg (fun v => some (FatEntry.from_u32 FatType.Fat12 v)) ?_
    rcases Nat.mod_two_eq_zero_or_one n with hpar | hpar
    · have hodd : ¬ n % 2 = 1 := by omega
      rw [if_neg hodd, if_pos hpar]
      rw [Nat.shiftLeft_eq]
      rw [lor_eq_add_pow _ (show fs.fat.get ⟨n * 3 / 2, h1⟩ < 2 ^ 8 by omega)]
      have e1 := Nat.and_pow_two_sub_one_eq_mod (fs.fat.get ⟨n * 3 / 2 + 1, h2⟩) 4
      norm_num at e1 ⊢
      omega
    · have heven : ¬ n % 2 = 0 := by omega
      rw [if_pos hpar, if_neg heven]
      rw [Nat.shiftLeft_eq, Nat.shiftRight_eq_div_pow]
      rw [lor_eq_add_pow _
        (show fs.fat.get ⟨n * 3 / 2, h1⟩ / 2 ^ 4 < 2 ^ 4 by
          have : (2 : Nat) ^ 4 = 16 := by norm_num
          rw [this]
          omega)]
      norm_num
      omega
  | Fat16 =>
    rw [hty] at hoff
    simp only at hoff
    have h1 : n * 2 < fs.fat.length := by omega
    have h2 : n * 2 + 1 < fs.fat.length := hoff
    dsimp only
    rw [if_pos h1]
    unfold loadLE16
    rw [List.get?_eq_get h1, List.get?_eq_get h2]
    rw [List.getD_eq_get?, List.getD_eq_get?, List.get?_eq_get h1, List.get?_eq_get h2,
      Option.getD_some, Option.getD_some]
    rfl
  | Fat32 =>
    rw [hty] at hoff
    simp only at hoff
    have h1 : n * 4 < fs.fat.length := by omega
    have h2 : n * 4 + 1 < fs.fat.length := by omega
    have h3 : n * 4 + 2 < fs.fat.length := by omega
    have h4 : n * 4 + 3 < fs.fat.length := hoff
    dsimp only
    rw [if_pos h1]
    unfold loadLE32
    rw [List.get?_eq_get h1, List.get?_eq_get h2, List.get?_eq_get h3, List.get?_eq_get h4]
    rw [List.getD_eq_get?, List.getD_eq_get?, List.getD_eq_get?, List.getD_eq_get?,
      List.get?_eq_get h1, List.get?_eq_get h2, List.get?_eq_get h3, List.get?_eq_get h4,
      Option.getD_some, Option.getD_some, Option.getD_some, Option.getD_some]
    dsimp only [Option.bind, Option.map]
    refine congrArg (fun v => some (FatEntry.from_u32 FatType.Fat32 v)) ?_
    have e1 := Nat.and_pow_two_sub_one_eq_mod
      (fs.fat.get ⟨n * 4, h1⟩ + fs.fat.get ⟨n * 4 + 1, h2⟩ * 256 +
        fs.fat.get ⟨n * 4 + 2, h3⟩ * 65536 + fs.fat.get ⟨n * 4 + 3, h4⟩ * 16777216) 28
    norm_num at e1 ⊢
    rw [e1]

/-- Witness for C8: on the FAT16 volume `fatFsA`, entry 3 decodes through
offset `3*2 = 6` to the little-endian value 5, classified `Next 5`. -/
theorem read_fat_entry_decode_witness :
    (∀ b ∈ fatFsA.fat, b < 256) ∧
      fatFsA.read_fat_entry 3 =
        some (FatEntry.from_u32 fatFsA.boot_sector.ty
          (fatSpecValue fatFsA.boot_sector.ty fatFsA.fat 3)) :=
  ⟨by decide, read_fat_entry_decode fatFsA 3 (by decide) (by decide)⟩

theorem read_file_loop_length_le (fs : FatFilesystem) :
    ∀ (fuel cluster pic : Nat) (acc : List Nat) (max_to_read : Nat) (out : List Nat),
      fs.read_file_loop fuel cluster pic acc max_to_read = some (Except.ok out) →
      out.length ≤ max acc.length max_to_read := by
  intro fuel
  induction fuel with
  | zero =>
    intro _ _ _ _ _ h
    exact absurd h (by simp [FatFilesystem.read_file_loop])
  | succ fuel ih =>
    intro cluster pic acc max_to_read out h
    simp only [FatFilesystem.read_file_loop] at h
    split at h
    · rename_i hlt
      split at h
      · exact absurd h (by simp)
      · rename_i hbps
        split at h
        · -- crossed the cluster boundary: consult the FAT
          split at h
          · exact absurd h (by simp)
          · -- Next: recurse into the next cluster
            have := ih _ _ _ _ _ h
            simp only [List.length_append, List.length_take] at this ⊢
            omega
          · -- EndOfChain: break and return what was copied
            injection h with h'
            injection h' with h''
            subst h''
            simp only [List.length_append, List.length_take]
            omega
          · exact absurd h (by simp)
        · -- still inside the cluster
          have := ih _ _ _ _ _ h
          simp only [List.length_append, List.length_take] at this ⊢
          omega
    · injection h with h'
      injection h' with h''
      subst h''
      omega

set_option maxRecDepth 40000 in
/-- **C3 (counterexample).** For the chain `3 → 5 → EOC` with cluster size
1024 and file size 1500, `read_file` at position 1024 with a 500-byte
buffer returns 476 bytes — the clamp `inode.size - position`
(`1500 - 1024`) — not the 500 bytes the claim states. -/
theorem read_file_s4_clamps_to_476 :
    ∃ out, fatFsA.read_file inodeA 1024 500 2 = some (Except.ok out) ∧
      out.length = 476 ∧ out.length ≠ 500 :=
  ⟨_, rfl, by decide, by decide⟩

set_option maxRecDepth 40000 in
/-- **C3 (amended).** For the file `3 → 5 → EOC` (cluster size 1024, file
size 1500) on `fatFsA`, `read_file` at position 1024 with a 500-byte
buffer returns `1500 - 1024 = 476` bytes, all taken from cluster 5, sector
0, offset 0 (sector `first_sector_of_cluster 5`); the subsequent read at
the advanced position `1024 + 476` returns 0 bytes; and in general
`read_file` returns the number of bytes copied, clamped to the buffer
length and to the remaining file size `inode.size - position`. -/
theorem read_file_chain_walk_and_clamp :
    (∃ out, fatFsA.read_file inodeA 1024 500 2 = some (Except.ok out) ∧
        out.length = 1500 - 1024 ∧
        out = (List.range 476).map fun i =>
          fatFsA.device.data
            ((fatFsA.start_lba + fatFsA.first_sector_of_cluster 5) * 512 + i)) ∧
      fatFsA.read_file inodeA (1024 + 476) 500 2 = some (Except.ok []) ∧
      ∀ (fs : FatFilesystem) (inode : INode) (position buf_len fuel : Nat) (out : List Nat),
        fs.read_file inode position buf_len fuel = some (Except.ok out) →
        out.length ≤ min buf_len (inode.size - position) := by
  refine ⟨⟨_, rfl, by decide, by decide⟩, rfl, ?_⟩
  intro fs inode position buf_len fuel out h
  simp only [FatFilesystem.read_file] at h
  split at h
  · exact absurd h (by simp)
  · split at h
    · rename_i hpos
      injection h with h'
      injection h' with h''
      subst h''
      simp
    · split at h
      · exact absurd h (by simp)
      · split at h
        · exact absurd h (by simp)
        · exact absurd h (by simp)
        · have := read_file_loop_length_le fs _ _ _ _ _ _ h
          simpa using this

/-- Witness for C3: the clamp law applied to the concrete first read. -/
theorem read_file_chain_walk_and_clamp_witness :
    ∃ out, fatFsA.read_file inodeA 1024 500 2 = some (Except.ok out) ∧
      out.length ≤ min 500 (inodeA.size - 1024) := by
  obtain ⟨out, h, -, -⟩ := read_file_chain_walk_and_clamp.1
  exact ⟨out, h, read_file_chain_walk_and_clamp.2.2 fatFsA inodeA 1024 500 2 out h⟩

/-! ## Virtual memory theorems -/

theorem and_u64_not_and (e f M : Nat) (hM : M < 2 ^ 64) (hfM : f &&& M = 0) :
    (e &&& u64_not f) &&& M = e &&& M := by
  apply Nat.eq_of_testBit_eq
  intro i
  have hfMi : ¬(f.testBit i = true ∧ M.testBit i = true) := by
    rintro ⟨hf, hMi⟩
    have hz := congrArg (fun x => x.testBit i) hfM
    simp only [Nat.testBit_and, Nat.zero_testBit, hf, hMi, Bool.and_self] at hz
    simp at hz
  by_cases hi : i < 64
  · have hmask64 : (0xFFFFFFFFFFFFFFFF : Nat) = 2 ^ 64 - 1 := by norm_num
    have hdec : decide (i < 64) = true := by simp [hi]
    simp only [Nat.testBit_and, u64_not, Nat.testBit_xor, hmask64,
      Nat.testBit_two_pow_sub_one, hdec]
    cases hf : f.testBit i <;> cases hM2 : M.testBit i <;> simp_all
  · have hMi : M.testBit i = false :=
      Nat.testBit_lt_two_pow
        (lt_of_lt_of_le hM (Nat.pow_le_pow_right (by norm_num) (le_of_not_lt hi)))
    simp [Nat.testBit_and, hMi]

theorem and_mask_addr (k : Nat) (hk : k < 2 ^ 20) :
    (k * 2 ^ 12 ||| 3) &&& ADDR_MASK = k * 2 ^ 12 := by
  have h3 : (3 : Nat) &&& ADDR_MASK = 0 := by decide
  rw [Nat.and_distrib_right, h3, Nat.or_zero]
  have hM : ADDR_MASK = (2 ^ 20 - 1) <<< 12 := by decide
  rw [hM, show k * 2 ^ 12 = k <<< 12 from by rw [Nat.shiftLeft_eq]]
  apply Nat.eq_of_testBit_eq
  intro i
  simp only [Nat.testBit_and, Nat.testBit_shiftLeft, Nat.testBit_two_pow_sub_one]
  by_cases h12 : 12 ≤ i
  · have hdec12 : decide (12 ≤ i) = true := by simp [h12]
    simp only [hdec12, Bool.true_and]
    by_cases h20 : i - 12 < 20
    · simp [h20]
    · have : k.testBit (i - 12) = false :=
        Nat.testBit_lt_two_pow
          (lt_of_lt_of_le hk (Nat.pow_le_pow_right (by norm_num) (by omega)))
      simp [this]
  · simp [h12]

theorem allocAddr_inj {j k : Nat} (h : allocAddr j = allocAddr k) : j = k := by
  unfold allocAddr at h
  omega

/-- **C2 (counterexample).** On the concrete source space
`vmB`/`physMemB` (kernel L3 at `KERNEL_BASE + 0x2000`, allocator at bump
position 9), `clone_kernel_mem` installs a freshly allocated table at
`KERNEL_BASE + 0xB000` into the new kernel slot — not the source's L3
table, so the L3 table is copied, not shared. -/
theorem clone_kernel_mem_not_shared :
    fromEntry ((vmB.clone_kernel_mem physMemB).2.tables
        (vmB.clone_kernel_mem physMemB).1.page_map_l4 KERNEL_L4_INDEX) =
      KERNEL_BASE + 0xB000 ∧
    fromEntry (physMemB.tables vmB.page_map_l4 KERNEL_L4_INDEX) = KERNEL_BASE + 0x2000 ∧
    fromEntry ((vmB.clone_kernel_mem physMemB).2.tables
        (vmB.clone_kernel_mem physMemB).1.page_map_l4 KERNEL_L4_INDEX) ≠
      fromEntry (physMemB.tables vmB.page_map_l4 KERNEL_L4_INDEX) := by
  refine ⟨by decide, by decide, by decide⟩


/-- **C2 (amended).** `clone_kernel_mem` returns a new address space whose
kernel L4 slot (index `0x1FF`) refers to a *freshly allocated* L3 table
holding a copy of each of the source kernel L3 table's 512 entries (so the
global kernel mappings are aliased from the L2 tables down, not by sharing
the L3 table itself), and every user L4 entry (indices `0..0x1FE`) of the
new address space is zero.  The hypotheses say the allocator's next two
pages are fresh (distinct from the source's L3 table) and within the
directly-mapped range. -/
theorem clone_kernel_mem_spec (vm : VirtualMemoryMapper) (m : PhysMem) (src_l3 : Nat)
    (hsrc : src_l3 = fromEntry (m.tables vm.page_map_l4 KERNEL_L4_INDEX))
    (hbound : m.nextFrame + 2 < 2 ^ 20)
    (hsrc1 : src_l3 ≠ allocAddr m.nextFrame)
    (hsrc2 : src_l3 ≠ allocAddr (m.nextFrame + 1)) :
    ∀ new_vm m', vm.clone_kernel_mem m = (new_vm, m') →
      new_vm.is_user = false ∧
      (∀ i < KERNEL_L4_INDEX, m'.tables new_vm.page_map_l4 i = 0) ∧
      fromEntry (m'.tables new_vm.page_map_l4 KERNEL_L4_INDEX) =
        allocAddr (m.nextFrame + 1) ∧
      fromEntry (m'.tables new_vm.page_map_l4 KERNEL_L4_INDEX) ≠ src_l3 ∧
      (∀ i ≤ 0x1FF, m'.tables (allocAddr (m.nextFrame + 1)) i = m.tables src_l3 i) := by
  intro new_vm m' h
  have ha12 : allocAddr m.nextFrame ≠ allocAddr (m.nextFrame + 1) := fun hc =>
    absurd (allocAddr_inj hc) (by omega)
  unfold VirtualMemoryMapper.clone_kernel_mem VirtualMemoryMapper.new
    PhysMem.alloc_zeroed at h
  dsimp only at h
  injection h with h1 h2
  subst h1
  subst h2
  have hfrom : fromEntry
      (virtual2physical (allocAddr (m.nextFrame + 1)) ||| PTE_PRESENT ||| PTE_WRITABLE) =
      allocAddr (m.nextFrame + 1) := by
    unfold fromEntry physical2virtual virtual2physical allocAddr KERNEL_BASE
    have hval : 0xFFFFFFFF80000000 + 4096 * (m.nextFrame + 1 + 1) - 0xFFFFFFFF80000000 =
        (m.nextFrame + 2) * 2 ^ 12 := by
      have h12 : (2 : Nat) ^ 12 = 4096 := by norm_num
      rw [h12]
      ring_nf
      omega
    rw [hval]
    have hor : (m.nextFrame + 2) * 2 ^ 12 ||| PTE_PRESENT ||| PTE_WRITABLE =
        (m.nextFrame + 2) * 2 ^ 12 ||| 3 := by
      unfold PTE_PRESENT PTE_WRITABLE
      rw [Nat.or_assoc]
      congr 1
    rw [hor, and_mask_addr _ (by omega)]
    have h12 : (2 : Nat) ^ 12 = 4096 := by norm_num
    rw [h12]
    ring
  have ha21 : allocAddr (m.nextFrame + 1) ≠ allocAddr m.nextFrame := Ne.symm ha12
  refine ⟨rfl, ?_, ?_, ?_, ?_⟩
  · intro i hi
    have hne : i ≠ KERNEL_L4_INDEX := Nat.ne_of_lt hi
    simp [PhysMem.setEntry, hne, ha12]
  · simpa [PhysMem.setEntry] using hfrom
  · simp only [PhysMem.setEntry]
    simp [hfrom]
    exact fun hc => hsrc2 hc.symm
  · intro i hi
    simp only [PhysMem.setEntry]
    rw [← hsrc]
    simp [ha21, hi, hsrc1, hsrc2]

/-- Witness for C2: the amended clone law applied to the concrete source
space `vmB`/`physMemB`: the clone's user slot 7 is zero, its kernel slot
resolves to the fresh table `allocAddr 10 = KERNEL_BASE + 0xB000`, and
that table's entry `0x1FE` equals the source L3 table's entry `0x1FE`. -/
theorem clone_kernel_mem_spec_witness :
    fromEntry (physMemB.tables vmB.page_map_l4 KERNEL_L4_INDEX) ≠ allocAddr physMemB.nextFrame ∧
    fromEntry (physMemB.tables vmB.page_map_l4 KERNEL_L4_INDEX) ≠
      allocAddr (physMemB.nextFrame + 1) ∧
    (vmB.clone_kernel_mem physMemB).1.is_user = false ∧
    (vmB.clone_kernel_mem physMemB).2.tables (vmB.clone_kernel_mem physMemB).1.page_map_l4 7 = 0 ∧
    (vmB.clone_kernel_mem physMemB).2.tables (allocAddr (physMemB.nextFrame + 1)) 0x1FE =
      physMemB.tables (fromEntry (physMemB.tables vmB.page_map_l4 KERNEL_L4_INDEX)) 0x1FE := by
  obtain ⟨h1, h2, h3, h4, h5⟩ :=
    clone_kernel_mem_spec vmB physMemB (KERNEL_BASE + 0x2000) (by decide) (by decide)
      (by decide) (by decide) (vmB.clone_kernel_mem physMemB).1
      (vmB.clone_kernel_mem physMemB).2 rfl
  have hfe : fromEntry (physMemB.tables vmB.page_map_l4 KERNEL_L4_INDEX) =
      KERNEL_BASE + 0x2000 := by decide
  refine ⟨by decide, by decide, h1, h2 7 (by decide), ?_⟩
  rw [hfe]
  exact h5 0x1FE (by decide)

theorem setEntry_tables_ne (m : PhysMem) {t i : Nat} (t' i' : Nat) (v : Nat)
    (h : ¬(t' = t ∧ i' = i)) : (m.setEntry t i v).tables t' i' = m.tables t' i' := by
  simp only [PhysMem.setEntry]
  rw [if_neg h]

theorem setEntry_tables_eq (m : PhysMem) (t i v : Nat) :
    (m.setEntry t i v).tables t i = v := by
  simp [PhysMem.setEntry]

theorem unmap_level_eq (m : PhysMem) (t i flags : Nat)
    (hp : m.tables t i &&& PTE_PRESENT ≠ 0) :
    unmap_level m t i flags =
      some (m.setEntry t i (m.tables t i &&& u64_not flags),
        fromEntry (m.tables t i &&& u64_not flags)) := by
  unfold unmap_level
  rw [if_neg hp]

theorem unmap_loop_succ (vm : VirtualMemoryMapper) (flags : Nat) (is_allocated : Bool)
    (fuel : Nat) (m : PhysMem) (va size : Nat) :
    vm.unmap_loop flags is_allocated (fuel + 1) m va size =
      if size = 0 then some m
      else
        match vm.unmap_page flags is_allocated m va with
        | none => none
        | some m2 =>
          if size - PAGE_4K = 0 then some m2
          else vm.unmap_loop flags is_allocated fuel m2 (va + PAGE_4K) (size - PAGE_4K) := rfl

/-- **C9.** For a one-page range, `unmap(entry, is_allocated)` clears to
zero only the L1 leaf entry of the page (freeing the referenced frame
exactly when `is_allocated`), while every traversed intermediate L4, L3
and L2 entry has exactly the bits of `entry.flags` removed
(`*entry &= !flags`) yet stays present, the intermediate tables stay
allocated (no frees besides the leaf frame, `nextFrame` untouched), and
every other table entry is unchanged — so flag bits such as `writable` or
`user` are stripped from the shared intermediate entries even while
sibling leaf entries under them stay mapped.  The final conjunct runs the
loop over a concrete two-page range on `physMemC` sharing one L1 table
with a third, still-mapped page: both leaves are zeroed and freed, the
intermediate entries lose `WRITABLE | USER` but stay present, and the
sibling leaf is untouched. -/
theorem unmap_single_page_spec (vm : VirtualMemoryMapper) (m : PhysMem)
    (entry : VirtualMemoryMapEntry) (is_allocated : Bool) (t3 t2 t1 : Nat)
    (hphys : entry.physical_address = none)
    (hva : entry.virtual_address % 4096 = 0)
    (hsz1 : 0 < entry.size) (hsz2 : entry.size ≤ 4096)
    (hfp : entry.flags &&& PTE_PRESENT = 0)
    (hfm : entry.flags &&& ADDR_MASK = 0)
    (ht3 : t3 = fromEntry (m.tables vm.page_map_l4 (get_l4 entry.virtual_address)))
    (ht2 : t2 = fromEntry (m.tables t3 (get_l3 entry.virtual_address)))
    (ht1 : t1 = fromEntry (m.tables t2 (get_l2 entry.virtual_address)))
    (hp4 : m.tables vm.page_map_l4 (get_l4 entry.virtual_address) &&& PTE_PRESENT ≠ 0)
    (hp3 : m.tables t3 (get_l3 entry.virtual_address) &&& PTE_PRESENT ≠ 0)
    (hp2 : m.tables t2 (get_l2 entry.virtual_address) &&& PTE_PRESENT ≠ 0)
    (hp1 : m.tables t1 (get_l1 entry.virtual_address) &&& PTE_PRESENT ≠ 0)
    (hd43 : vm.page_map_l4 ≠ t3) (hd42 : vm.page_map_l4 ≠ t2) (hd41 : vm.page_map_l4 ≠ t1)
    (hd32 : t3 ≠ t2) (hd31 : t3 ≠ t1) (hd21 : t2 ≠ t1) :
    (∃ m', vm.unmap m entry is_allocated = some m' ∧
      m'.tables vm.page_map_l4 (get_l4 entry.virtual_address) =
        m.tables vm.page_map_l4 (get_l4 entry.virtual_address) &&& u64_not entry.flags ∧
      m'.tables vm.page_map_l4 (get_l4 entry.virtual_address) &&& PTE_PRESENT ≠ 0 ∧
      m'.tables t3 (get_l3 entry.virtual_address) =
        m.tables t3 (get_l3 entry.virtual_address) &&& u64_not entry.flags ∧
      m'.tables t3 (get_l3 entry.virtual_address) &&& PTE_PRESENT ≠ 0 ∧
      m'.tables t2 (get_l2 entry.virtual_address) =
        m.tables t2 (get_l2 entry.virtual_address) &&& u64_not entry.flags ∧
      m'.tables t2 (get_l2 entry.virtual_address) &&& PTE_PRESENT ≠ 0 ∧
      m'.tables t1 (get_l1 entry.virtual_address) = 0 ∧
      m'.freed = (if is_allocated then
          fromEntry (m.tables t1 (get_l1 entry.virtual_address)) :: m.freed
        else m.freed) ∧
      m'.nextFrame = m.nextFrame ∧
      (∀ t i, ¬(t = vm.page_map_l4 ∧ i = get_l4 entry.virtual_address) →
        ¬(t = t3 ∧ i = get_l3 entry.virtual_address) →
        ¬(t = t2 ∧ i = get_l2 entry.virtual_address) →
        ¬(t = t1 ∧ i = get_l1 entry.virtual_address) →
        m'.tables t i = m.tables t i)) ∧
    ((vmC.unmap physMemC entryC true).map fun mm =>
        (mm.tables (KERNEL_BASE + 0x4000) 0, mm.tables (KERNEL_BASE + 0x4000) 1,
          mm.tables (KERNEL_BASE + 0x4000) 2, mm.tables (KERNEL_BASE + 0x3000) 0,
          mm.tables (KERNEL_BASE + 0x2000) 0, mm.tables (KERNEL_BASE + 0x1000) 0,
          mm.freed)) =
      some (0, 0, 0x12007, 0x4001, 0x3001, 0x2001,
        [KERNEL_BASE + 0x11000, KERNEL_BASE + 0x10000]) := by
  constructor
  · -- abbreviations
    set va := entry.virtual_address with hva_def
    set f := entry.flags with hf_def
    set i4 := get_l4 va
    set i3 := get_l3 va
    set i2 := get_l2 va
    set i1 := get_l1 va
    set t4 := vm.page_map_l4 with ht4_def
    set v4 := m.tables t4 i4 &&& u64_not f with hv4
    set m1 := m.setEntry t4 i4 v4 with hm1
    set v3 := m.tables t3 i3 &&& u64_not f with hv3
    set m2 := m1.setEntry t3 i3 v3 with hm2
    set v2 := m.tables t2 i2 &&& u64_not f with hv2
    set m3 := m2.setEntry t2 i2 v2 with hm3
    set e1 := m.tables t1 i1 with he1
    set mf := if is_allocated then m3.free (fromEntry e1) else m3 with hmf
    have hfe4 : fromEntry (m.tables t4 i4 &&& u64_not f) = t3 := by
      rw [ht3]
      unfold fromEntry
      rw [and_u64_not_and _ _ _ (by decide) hfm]
    have hm1t3 : m1.tables t3 i3 = m.tables t3 i3 := by
      rw [hm1]
      exact setEntry_tables_ne _ _ _ _ (by rintro ⟨hc, -⟩; exact hd43 hc.symm)
    have hfe3 : fromEntry (m.tables t3 i3 &&& u64_not f) = t2 := by
      rw [ht2]
      unfold fromEntry
      rw [and_u64_not_and _ _ _ (by decide) hfm]
    have hm2t2 : m2.tables t2 i2 = m.tables t2 i2 := by
      rw [hm2, hm1]
      rw [setEntry_tables_ne _ _ _ _ (by rintro ⟨hc, -⟩; exact hd32 hc.symm)]
      exact setEntry_tables_ne _ _ _ _ (by rintro ⟨hc, -⟩; exact hd42 hc.symm)
    have hfe2 : fromEntry (m.tables t2 i2 &&& u64_not f) = t1 := by
      rw [ht1]
      unfold fromEntry
      rw [and_u64_not_and _ _ _ (by decide) hfm]
    have hm3t1 : m3.tables t1 i1 = m.tables t1 i1 := by
      rw [hm3, hm2, hm1]
      rw [setEntry_tables_ne _ _ _ _ (by rintro ⟨hc, -⟩; exact hd21 hc.symm)]
      rw [setEntry_tables_ne _ _ _ _ (by rintro ⟨hc, -⟩; exact hd31 hc.symm)]
      exact setEntry_tables_ne _ _ _ _ (by rintro ⟨hc, -⟩; exact hd41 hc.symm)
    have hpage : vm.unmap_page f is_allocated m va = some (mf.setEntry t1 i1 0) := by
      unfold VirtualMemoryMapper.unmap_page
      rw [unmap_level_eq m t4 i4 f hp4]
      dsimp only [Option.bind]
      rw [hfe4]
      rw [unmap_level_eq m1 t3 i3 f (by rw [hm1t3]; exact hp3)]
      dsimp only [Option.bind]
      rw [hm1t3, hfe3]
      rw [unmap_level_eq m2 t2 i2 f (by rw [hm2t2]; exact hp2)]
      dsimp only [Option.bind]
      rw [hm2t2, hfe2]
      rw [hm3t1]
      rw [if_neg hp1]
    have halign : align_range va entry.size PAGE_4K = (va, 4096) := by
      unfold align_range PAGE_4K
      simp only [Prod.mk.injEq]
      constructor
      · omega
      · omega
    have hrun : vm.unmap m entry is_allocated = some (mf.setEntry t1 i1 0) := by
      unfold VirtualMemoryMapper.unmap
      rw [if_neg (by simp [hphys])]
      rw [← hva_def, ← hf_def, halign]
      dsimp only
      rw [if_neg (by norm_num)]
      rw [show (4096 : Nat) / PAGE_4K + 1 = 1 + 1 from by decide]
      rw [unmap_loop_succ]
      rw [if_neg (by norm_num)]
      rw [hpage]
      dsimp only
      rw [if_pos (by decide)]
    have hmf_tables : mf.tables = m3.tables := by
      rw [hmf]
      cases is_allocated <;> rfl
    refine ⟨mf.setEntry t1 i1 0, hrun, ?_, ?_, ?_, ?_, ?_, ?_, ?_, ?_, ?_, ?_⟩
    · rw [setEntry_tables_ne _ _ _ _ (by rintro ⟨hc, -⟩; exact hd41 hc)]
      rw [hmf_tables, hm3, hm2, hm1]
      rw [setEntry_tables_ne _ _ _ _ (by rintro ⟨hc, -⟩; exact hd42 hc)]
      rw [setEntry_tables_ne _ _ _ _ (by rintro ⟨hc, -⟩; exact hd43 hc)]
      exact setEntry_tables_eq _ _ _ _
    · rw [setEntry_tables_ne _ _ _ _ (by rintro ⟨hc, -⟩; exact hd41 hc)]
      rw [hmf_tables, hm3, hm2, hm1]
      rw [setEntry_tables_ne _ _ _ _ (by rintro ⟨hc, -⟩; exact hd42 hc)]
      rw [setEntry_tables_ne _ _ _ _ (by rintro ⟨hc, -⟩; exact hd43 hc)]
      rw [setEntry_tables_eq, hv4]
      rw [and_u64_not_and _ _ _ (by decide) hfp]
      exact hp4
    · rw [setEntry_tables_ne _ _ _ _ (by rintro ⟨hc, -⟩; exact hd31 hc)]
      rw [hmf_tables, hm3, hm2]
      rw [setEntry_tables_ne _ _ _ _ (by rintro ⟨hc, -⟩; exact hd32 hc)]
      rw [setEntry_tables_eq, hv3]
    · rw [setEntry_tables_ne _ _ _ _ (by rintro ⟨hc, -⟩; exact hd31 hc)]
      rw [hmf_tables, hm3, hm2]
      rw [setEntry_tables_ne _ _ _ _ (by rintro ⟨hc, -⟩; exact hd32 hc)]
      rw [setEntry_tables_eq, hv3]
      rw [and_u64_not_and _ _ _ (by decide) hfp]
      exact hp3
    · rw [setEntry_tables_ne _ _ _ _ (by rintro ⟨hc, -⟩; exact hd21 hc)]
      rw [hmf_tables, hm3]
      rw [setEntry_tables_eq, hv2]
    · rw [setEntry_tables_ne _ _ _ _ (by rintro ⟨hc, -⟩; exact hd21 hc)]
      rw [hmf_tables, hm3]
      rw [setEntry_tables_eq, hv2]
      rw [and_u64_not_and _ _ _ (by decide) hfp]
      exact hp2
    · exact setEntry_tables_eq _ _ _ _
    · rw [hmf]
      cases is_allocated <;> rfl
    · rw [hmf]
      cases is_allocated <;> rfl
    · intro t i hn4 hn3 hn2 hn1
      rw [setEntry_tables_ne _ _ _ _ hn1]
      rw [hmf_tables, hm3, hm2, hm1]
      rw [setEntry_tables_ne _ _ _ _ hn2]
      rw [setEntry_tables_ne _ _ _ _ hn3]
      exact setEntry_tables_ne _ _ _ _ hn4
  · rfl

/-- Witness for C9: the single-page law applied to the concrete page at
`0x1000` of `physMemC` (leaf slot 1 of the L1 table at
`KERNEL_BASE + 0x4000`): the leaf entry is cleared, the frame freed, and
the traversed L2 entry keeps only its other bits. -/
theorem unmap_single_page_spec_witness :
    entryC1.flags &&& PTE_PRESENT = 0 ∧
    (vmC.unmap physMemC entryC1 true).map
        (fun mm =>
          (mm.tables (KERNEL_BASE + 0x4000) (get_l1 entryC1.virtual_address),
            mm.tables (KERNEL_BASE + 0x3000) (get_l2 entryC1.virtual_address),
            mm.freed)) =
      some (0,
        physMemC.tables (KERNEL_BASE + 0x3000) (get_l2 entryC1.virtual_address) &&&
          u64_not entryC1.flags,
        [KERNEL_BASE + 0x11000]) := by
  obtain ⟨⟨m', hrun, hL4, hL4p, hL3, hL3p, hL2, hL2p, hL1, hfr, hnf, hframe⟩, -⟩ :=
    unmap_single_page_spec vmC physMemC entryC1 true (KERNEL_BASE + 0x2000)
      (KERNEL_BASE + 0x3000) (KERNEL_BASE + 0x4000) rfl (by decide) (by decide) (by decide)
      (by decide) (by decide) (by decide) (by decide) (by decide) (by decide) (by decide)
      (by decide) (by decide) (by decide) (by decide) (by decide) (by decide) (by decide)
      (by decide)
  refine ⟨by decide, ?_⟩
  rw [hrun]
  simp only [Option.map]
  rw [hL1, hL2, hfr]
  rfl

open Aml

theorem pkgFollowLoop_spec (k : Nat) :
    ∀ (acc i : Nat) (p : Parser), p.pos + k ≤ p.code.length →
      pkgFollowLoop acc i k p =
        (AmlOut.ok (acc ||| pkgFollowValueAux p.code p.pos i k),
          { p with pos := p.pos + k }) := by
  induction k with
  | zero =>
    intro acc i p h
    simp [pkgFollowLoop, pkgFollowValueAux]
  | succ k ih =>
    intro acc i p h
    have hlt : ¬ p.code.length ≤ p.pos := by omega
    simp only [pkgFollowLoop, Parser.get_next_byte, if_neg hlt]
    rw [ih (acc ||| (p.code.getD p.pos 0 <<< (8 * i + 4))) (i + 1)
      { p with pos := p.pos + 1 } (by simp; omega)]
    simp [pkgFollowValueAux, Nat.or_assoc, Nat.add_assoc, Nat.add_comm 1 k]

theorem get_pkg_length_run (p : Parser)
    (h : p.pos + 1 + (p.code.getD p.pos 0 >>> 6) ≤ p.code.length) :
    p.get_pkg_length =
      if p.code.getD p.pos 0 >>> 6 ≠ 0 ∧ (p.code.getD p.pos 0 >>> 4) &&& 3 ≠ 0 then
        (AmlOut.err AmlParseError.InvalidPkgLengthLead, { p with pos := p.pos + 1 })
      else
        (AmlOut.ok ((pkgEncodedLength p.code p.pos : Int) -
            (p.code.getD p.pos 0 >>> 6 : Nat) - 1),
          { p with pos := p.pos + 1 + (p.code.getD p.pos 0 >>> 6) }) := by
  have hlt : ¬ p.code.length ≤ p.pos := by omega
  unfold Parser.get_pkg_length
  simp only [Parser.get_next_byte, if_neg hlt]
  simp only [List.getD_eq_getElem?_getD] at h ⊢
  by_cases hf : (p.code[p.pos]?).getD 0 >>> 6 = 0
  · simp [hf, pkgEncodedLength]
  · by_cases hb : ((p.code[p.pos]?).getD 0 >>> 4) &&& 3 ≠ 0
    · simp [hf, hb]
    · rw [pkgFollowLoop_spec ((p.code[p.pos]?).getD 0 >>> 6) ((p.code[p.pos]?).getD 0 &&& 0x0F) 0
        { p with pos := p.pos + 1 } (by simpa using h)]
      simp [hf, hb, pkgEncodedLength, Nat.add_assoc]

/-- **C5.** `get_pkg_length` decodes exactly the specification's formula:
with enough bytes for the encoding, a lead whose high two bits (`follow`)
are zero yields `(lead & 0x3F) - 1`; for `follow > 0` it errs with
`InvalidPkgLengthLead` exactly when bits 4-5 of the lead are nonzero, and
otherwise yields the low 4 bits or-ed with each following byte shifted
left by `8*i + 4`, minus `follow`, minus 1 — the encoded length minus the
bytes consumed by the length encoding itself (the subtraction is exposed
over `Int`). -/
theorem get_pkg_length_matches_spec_formula (p : Parser)
    (h : p.pos + 1 + (p.code.getD p.pos 0 >>> 6) ≤ p.code.length) :
    p.get_pkg_length =
      if p.code.getD p.pos 0 >>> 6 ≠ 0 ∧ (p.code.getD p.pos 0 >>> 4) &&& 3 ≠ 0 then
        (AmlOut.err AmlParseError.InvalidPkgLengthLead, { p with pos := p.pos + 1 })
      else
        (AmlOut.ok ((pkgEncodedLength p.code p.pos : Int) -
            (p.code.getD p.pos 0 >>> 6 : Nat) - 1),
          { p with pos := p.pos + 1 + (p.code.getD p.pos 0 >>> 6) }) :=
  get_pkg_length_run p h

theorem get_pkg_length_matches_spec_formula_witness :
    pkgSpecParser.pos + 1 + (pkgSpecParser.code.getD pkgSpecParser.pos 0 >>> 6) ≤
        pkgSpecParser.code.length ∧
    pkgSpecParser.get_pkg_length =
      (AmlOut.ok 3, { code := [0x45, 0x00], pos := 2, state := initState }) := by
  refine ⟨by decide, ?_⟩
  rw [get_pkg_length_matches_spec_formula pkgSpecParser (by decide)]
  rfl

/-- **C10** (counterexample): a lead byte `0x00` is accepted and decodes
to the negative payload length `-1`; the source's `usize` subtraction
`(lead & 0x3F) - 1` underflows on it. -/
theorem get_pkg_length_zero_lead_underflows :
    pkgZeroParser.get_pkg_length =
      (AmlOut.ok (-1), { code := [0x00], pos := 1, state := initState }) ∧
    (-1 : Int) < 0 := ⟨rfl, by decide⟩

/-- **C10** (amended): with enough bytes for the encoding,
`get_pkg_length` returns `InvalidPkgLengthLead` exactly when `follow > 0`
and bits 4-5 of the lead are nonzero, and otherwise returns
`encoded - follow - 1`; that value is negative — the source's `usize`
subtraction underflows — exactly when the accepted encoded length is
smaller than the `1 + follow` bytes consumed by the encoding itself
(e.g. a lead byte of `0x00`). -/
theorem get_pkg_length_underflow_characterization (p : Parser)
    (h : p.pos + 1 + (p.code.getD p.pos 0 >>> 6) ≤ p.code.length) :
    (p.code.getD p.pos 0 >>> 6 ≠ 0 ∧ (p.code.getD p.pos 0 >>> 4) &&& 3 ≠ 0 ∧
      p.get_pkg_length =
        (AmlOut.err AmlParseError.InvalidPkgLengthLead, { p with pos := p.pos + 1 })) ∨
    (∃ v : Int,
      p.get_pkg_length =
        (AmlOut.ok v, { p with pos := p.pos + 1 + (p.code.getD p.pos 0 >>> 6) }) ∧
      v = (pkgEncodedLength p.code p.pos : Int) - (p.code.getD p.pos 0 >>> 6 : Nat) - 1 ∧
      (v < 0 ↔ pkgEncodedLength p.code p.pos < p.code.getD p.pos 0 >>> 6 + 1)) := by
  have hrun := get_pkg_length_run p h
  by_cases hc : p.code.getD p.pos 0 >>> 6 ≠ 0 ∧ (p.code.getD p.pos 0 >>> 4) &&& 3 ≠ 0
  · exact Or.inl ⟨hc.1, hc.2, by rw [hrun, if_pos hc]⟩
  · refine Or.inr ⟨_, by rw [hrun, if_neg hc], rfl, ?_⟩
    omega

theorem get_pkg_length_underflow_characterization_witness :
    (pkgZeroParser.pos + 1 + (pkgZeroParser.code.getD pkgZeroParser.pos 0 >>> 6) ≤
        pkgZeroParser.code.length) ∧
    ((pkgZeroParser.code.getD pkgZeroParser.pos 0 >>> 6 ≠ 0 ∧
        (pkgZeroParser.code.getD pkgZeroParser.pos 0 >>> 4) &&& 3 ≠ 0 ∧
        pkgZeroParser.get_pkg_length =
          (AmlOut.err AmlParseError.InvalidPkgLengthLead,
            { pkgZeroParser with pos := pkgZeroParser.pos + 1 })) ∨
      (∃ v : Int,
        pkgZeroParser.get_pkg_length =
          (AmlOut.ok v,
            { pkgZeroParser with
                pos := pkgZeroParser.pos + 1 +
                  (pkgZeroParser.code.getD pkgZeroParser.pos 0 >>> 6) }) ∧
        v = (pkgEncodedLength pkgZeroParser.code pkgZeroParser.pos : Int) -
            (pkgZeroParser.code.getD pkgZeroParser.pos 0 >>> 6 : Nat) - 1 ∧
        (v < 0 ↔ pkgEncodedLength pkgZeroParser.code pkgZeroParser.pos <
            pkgZeroParser.code.getD pkgZeroParser.pos 0 >>> 6 + 1))) :=
  ⟨by decide, get_pkg_length_underflow_characterization pkgZeroParser (by decide)⟩

set_option maxHeartbeats 1000000 in
theorem parseNArgs_succ (fuel n : Nat) (p : Parser) (s : Store) :
    parseNArgs (fuel + 1) (n + 1) p s =
      match parseTermArgForMethodCall fuel p s with
      | (AmlOut.ok a, p1, s1) =>
        match parseNArgs fuel n p1 s1 with
        | (AmlOut.ok rest, p2, s2) => (AmlOut.ok (a :: rest), p2, s2)
        | (AmlOut.err e, p2, s2) => (AmlOut.err e, p2, s2)
        | (AmlOut.fatal, p2, s2) => (AmlOut.fatal, p2, s2)
        | (AmlOut.nofuel, p2, s2) => (AmlOut.nofuel, p2, s2)
      | (AmlOut.err e, p1, s1) => (AmlOut.err e, p1, s1)
      | (AmlOut.fatal, p1, s1) => (AmlOut.fatal, p1, s1)
      | (AmlOut.nofuel, p1, s1) => (AmlOut.nofuel, p1, s1) := rfl

set_option maxHeartbeats 4000000 in
theorem parseNArgs_length :
    ∀ (n fuel : Nat) (p : Parser) (s : Store) (args : List TermArg) (p1 : Parser) (s1 : Store),
      parseNArgs fuel n p s = (AmlOut.ok args, p1, s1) → args.length = n := by
  intro n
  induction n with
  | zero =>
    intro fuel p s args p1 s1 h
    cases fuel with
    | zero =>
      have h2 : ((AmlOut.ok [] : AmlOut (List TermArg)), p, s) = (AmlOut.ok args, p1, s1) := h
      rw [(AmlOut.ok.inj (Prod.mk.inj h2).1).symm]
      rfl
    | succ fuel =>
      have h2 : ((AmlOut.ok [] : AmlOut (List TermArg)), p, s) = (AmlOut.ok args, p1, s1) := h
      rw [(AmlOut.ok.inj (Prod.mk.inj h2).1).symm]
      rfl
  | succ n ih =>
    intro fuel p s args p1 s1 h
    cases fuel with
    | zero =>
      have h2 : ((AmlOut.nofuel : AmlOut (List TermArg)), p, s) = (AmlOut.ok args, p1, s1) := h
      exact AmlOut.noConfusion (Prod.mk.inj h2).1
    | succ fuel =>
      rw [parseNArgs_succ] at h
      split at h
      · split at h
        · rename_i heq2
          rw [(AmlOut.ok.inj (Prod.mk.inj h).1).symm]
          simp [List.length_cons, ih fuel _ _ _ _ _ heq2]
        · exact AmlOut.noConfusion (Prod.mk.inj h).1
        · exact AmlOut.noConfusion (Prod.mk.inj h).1
        · exact AmlOut.noConfusion (Prod.mk.inj h).1
      · exact AmlOut.noConfusion (Prod.mk.inj h).1
      · exact AmlOut.noConfusion (Prod.mk.inj h).1
      · exact AmlOut.noConfusion (Prod.mk.inj h).1

set_option maxHeartbeats 1000000 in
theorem parseMethodInvocation_succ (fuel : Nat) (p : Parser) (s : Store) :
    parseMethodInvocation (fuel + 1) p s =
      match backwardM 1 p s with
      | (AmlOut.ok _, p1, s1) =>
        match tryParseName fuel p1 s1 with
        | (AmlOut.ok (some name), p2, s2) =>
          (match State.find_method p2.state s2 name with
           | some k =>
             match parseNArgs fuel k p2 s2 with
             | (AmlOut.ok args, p3, s3) =>
               (AmlOut.ok (some (AmlTerm.MethodCall name args)), p3, s3)
             | (AmlOut.err e, p3, s3) => (AmlOut.err e, p3, s3)
             | (AmlOut.fatal, p3, s3) => (AmlOut.fatal, p3, s3)
             | (AmlOut.nofuel, p3, s3) => (AmlOut.nofuel, p3, s3)
           | none =>
             match predictPossibleArgs fuel p2 s2 with
             | (AmlOut.ok k, p3, s3) =>
               match parseNArgs fuel k p3 s3 with
               | (AmlOut.ok args, p4, s4) =>
                 (AmlOut.ok (some (AmlTerm.MethodCall name args)), p4, s4)
               | (AmlOut.err e, p4, s4) => (AmlOut.err e, p4, s4)
               | (AmlOut.fatal, p4, s4) => (AmlOut.fatal, p4, s4)
               | (AmlOut.nofuel, p4, s4) => (AmlOut.nofuel, p4, s4)
             | (AmlOut.err e, p3, s3) => (AmlOut.err e, p3, s3)
             | (AmlOut.fatal, p3, s3) => (AmlOut.fatal, p3, s3)
             | (AmlOut.nofuel, p3, s3) => (AmlOut.nofuel, p3, s3))
        | (AmlOut.ok none, p2, s2) => (AmlOut.ok none, p2, s2)
        | (AmlOut.err e, p2, s2) => (AmlOut.err e, p2, s2)
        | (AmlOut.fatal, p2, s2) => (AmlOut.fatal, p2, s2)
        | (AmlOut.nofuel, p2, s2) => (AmlOut.nofuel, p2, s2)
      | (AmlOut.err e, p1, s1) => (AmlOut.err e, p1, s1)
      | (AmlOut.fatal, p1, s1) => (AmlOut.fatal, p1, s1)
      | (AmlOut.nofuel, p1, s1) => (AmlOut.nofuel, p1, s1) := rfl

set_option maxRecDepth 200000 in
set_option maxHeartbeats 8000000 in
/-- **C4.** When a name in term position resolves through
`State::find_method` to a method with a recorded arity, the resulting
`MethodCall` consumes exactly that many arguments and the speculative
probe is not consulted; concretely, after parsing `Method(FOO_, 2)`, a
later occurrence of `FOO_` consumes exactly its two following term
arguments. -/
theorem method_call_uses_declared_arity :
    (∀ (fuel : Nat) (p p1 p2 p3 : Parser) (s s1 s2 s3 : Store) (name : String)
        (k : Nat) (t : Option AmlTerm),
      backwardM 1 p s = (AmlOut.ok (), p1, s1) →
      tryParseName fuel p1 s1 = (AmlOut.ok (some name), p2, s2) →
      State.find_method p2.state s2 name = some k →
      parseMethodInvocation (fuel + 1) p s = (AmlOut.ok t, p3, s3) →
      ∃ args, t = some (AmlTerm.MethodCall name args) ∧ args.length = k) ∧
    (parse_aml methodArityDemo 50).1 =
      AmlOut.ok (AmlCode.mk [AmlTerm.Method (MethodObj.mk "FOO_" 2 []),
        AmlTerm.MethodCall "FOO_" [TermArg.DataObject DataObject.ConstZero,
          TermArg.DataObject DataObject.ConstOne]]) := by
  constructor
  · intro fuel p p1 p2 p3 s s1 s2 s3 name k t hb hn hf hrun
    rw [parseMethodInvocation_succ, hb] at hrun
    simp only at hrun
    rw [hn] at hrun
    simp only at hrun
    rw [hf] at hrun
    simp only at hrun
    split at hrun
    · rename_i args p4 s4 heq
      exact ⟨args, (AmlOut.ok.inj (Prod.mk.inj hrun).1).symm, parseNArgs_length k fuel p2 s2 args p4 s4 heq⟩
    · exact AmlOut.noConfusion (Prod.mk.inj hrun).1
    · exact AmlOut.noConfusion (Prod.mk.inj hrun).1
    · exact AmlOut.noConfusion (Prod.mk.inj hrun).1
  · rfl

set_option maxRecDepth 100000 in
set_option maxHeartbeats 4000000 in
theorem method_call_uses_declared_arity_witness :
    backwardM 1 callDemoParser callDemoStore =
      (AmlOut.ok (), { code := callDemoCode, pos := 0, state := initState }, callDemoStore) ∧
    tryParseName 9 { code := callDemoCode, pos := 0, state := initState } callDemoStore =
      (AmlOut.ok (some "FOO_"), { code := callDemoCode, pos := 4, state := initState },
        callDemoStore) ∧
    State.find_method ({ code := callDemoCode, pos := 4, state := initState } : Parser).state
        callDemoStore "FOO_" = some 2 ∧
    (∃ args, (some (AmlTerm.MethodCall "FOO_"
          [TermArg.DataObject DataObject.ConstZero, TermArg.DataObject DataObject.ConstOne]) :
            Option AmlTerm) =
        some (AmlTerm.MethodCall "FOO_" args) ∧ args.length = 2) :=
  ⟨rfl, rfl, rfl,
    method_call_uses_declared_arity.1 9 callDemoParser
      { code := callDemoCode, pos := 0, state := initState }
      { code := callDemoCode, pos := 4, state := initState }
      { code := callDemoCode, pos := 6, state := initState }
      callDemoStore callDemoStore callDemoStore callDemoStore "FOO_" 2
      (some (AmlTerm.MethodCall "FOO_"
        [TermArg.DataObject DataObject.ConstZero, TermArg.DataObject DataObject.ConstOne]))
      rfl rfl rfl rfl⟩
